import Mathlib

/-!
Verification of the outbound record-framing path of s2n
(`s2n_flush`, `adjust_record_size_if_needed`, `s2n_send`).

The C code is embedded as executable Lean functions over an explicit
connection state.  External collaborators (the transport, the monotonic
timer, the allocator behind `s2n_stuffer_resize`, the record emitter
`s2n_record_write`, `s2n_connection_wipe`, and
`s2n_record_max_write_payload_size`) are modelled as oracles: an
environment `Env` of response streams indexed by a cursor, so every run
is deterministic and computable.  Each function additionally produces a
trace of observable events (bytes handed to the transport, the
closed-flag transition, timer resets, record emissions) so that ordering
properties can be stated.

Machine integers are modelled as `Nat` with an explicit `% 2 ^ w`
wherever the C code can overflow a fixed-width counter
(`dyn_record_sz_bytes_out` is `uint32_t`, `wire_bytes_out` is
`uint64_t`, `elapsed_millis` is `uint32_t` computed from a `uint64_t`).
-/

namespace S2N

/-- Symbolic content of one byte sitting in the connection's output
stuffer (and, after draining, on the wire).  The real buffer holds
serialized record bytes; for the properties at hand only the kind of
record a byte belongs to is observable. -/
inductive OutByte
  | app
  | alertReader
  | alertWriter
deriving DecidableEq, Repr

/-- Cipher kind of the active cipher suite (`cipher->type` in the C
code); only the block-cipher (`S2N_CBC`) case is distinguished by the
send path. -/
inductive CipherType
  | stream
  | cbc
deriving DecidableEq, Repr

/-- Record content types handed to `s2n_record_write`. -/
inductive RecType
  | applicationData
  | alertRec
deriving DecidableEq, Repr

/-- Observable events emitted by a run. -/
inductive Ev
  | wire (b : OutByte)
  | closedSet
  | timerReset (nanos : Nat)
  | recWrite (t : RecType) (size : Nat)
deriving DecidableEq, Repr

/-- Response of one `s2n_stuffer_send_to_fd` call: either an error with
`errno = EWOULDBLOCK`, an error with any other `errno`, or success
having placed (up to) `w` bytes on the wire. -/
inductive TResp
  | wouldBlock
  | errOther
  | ok (w : Nat)
deriving DecidableEq, Repr

/-- Response of one `s2n_stuffer_resize` call: success, failure with
`s2n_errno = S2N_ERR_REALLOC`, or failure with any other error. -/
inductive RResp
  | ok
  | errRealloc
  | errOther
deriving DecidableEq, Repr

/-- Error classification of a failing run (which `GUARD`/`S2N_ERROR`
fired). -/
inductive ECode
  | closedErr
  | ioErr
  | wipeErr
  | resizeErr
  | recordErr
  | payloadErr
deriving DecidableEq, Repr

/-- C struct `s2n_dyn_record_size_config` (src/tls/s2n_config.h lines
39-46).  `bytes_out_threshold` and `idle_millis_threshold` are
`uint32_t`, `max_fragment_size` is `uint16_t`. -/
structure DynRecordSizeConfig where
  bytes_out_threshold : Nat
  idle_millis_threshold : Nat
  max_fragment_size : Nat
deriving DecidableEq, Repr

/-- The slice of `struct s2n_connection` state read or written by
`s2n_flush`, `adjust_record_size_if_needed` and `s2n_send`.  Stuffers
are modelled by their available data: `out` as the list of (symbolic)
bytes between the read and write cursors, the two alert stuffers by
their `s2n_stuffer_data_available` count. -/
structure Conn where
  closed : Bool
  closing : Bool
  curr_max_fragment_size : Nat
  dyn_record_sz_bytes_out : Nat
  wire_bytes_out : Nat
  out : List OutByte
  reader_alert_out : Nat
  writer_alert_out : Nat
  actual_protocol_version : Nat
  cipher_type : CipherType
  config : DynRecordSizeConfig
deriving DecidableEq, Repr

/-- Oracle environment: response streams for every external
collaborator, each with its own cursor. -/
structure Env where
  writes : Nat → TResp
  wi : Nat
  elapsed : Nat → Nat
  ei : Nat
  resize : Nat → RResp
  ri : Nat
  recw : Nat → Bool
  rwi : Nat
  wipeOk : Nat → Bool
  wpi : Nat
  maxPayload : Int

/-- Modelled from the spec: `S2N_DEFAULT_FRAGMENT_LENGTH`, the
conservative MTU-sized initial fragment length (the macro is defined
outside the excerpt; its exact value is irrelevant to every claim). -/
def S2N_DEFAULT_FRAGMENT_LENGTH : Nat := 1398

/-- Modelled from the spec: the protocol-version constant `S2N_TLS11`,
the first version not vulnerable to the CBC chosen-plaintext attack.
s2n numbers versions SSLv3 = 30, TLS1.0 = 31, TLS1.1 = 32. -/
def S2N_TLS11 : Nat := 32

/-- Modelled from the spec: the serialized form of a 2-byte alert
record produced by the external `s2n_record_write` — a 5-byte record
header plus the 2-byte alert payload, tagged with its origin. -/
def alertRecordBytes (b : OutByte) : List OutByte := List.replicate 7 b

/-- Modelled from the spec: the serialized form of an application-data
record of payload `size` — a 5-byte record header plus the payload. -/
def appRecordBytes (size : Nat) : List OutByte := List.replicate (5 + size) .app

/-- Modelled from the spec: `s2n_tls_record_length`, the wire length of
a record with maximal fragment `frag` (header plus payload overhead);
it is only ever passed to the resize oracle. -/
def s2n_tls_record_length (frag : Nat) : Nat := frag + 5

/-- Result of the drain loop `while (s2n_stuffer_data_available(&conn->out)) ...`
shared by `s2n_flush` and `s2n_send`: fully drained, failed with
`errno == EWOULDBLOCK`, failed with another `errno`, or divergence
(the C loop never terminates when the transport reports 0 bytes
written while data remains). -/
inductive DrainRes
  | drained (c : Conn) (e : Env) (tr : List Ev)
  | failedWouldBlock (c : Conn) (e : Env) (tr : List Ev)
  | failedErr (c : Conn) (e : Env) (tr : List Ev)
  | diverged (c : Conn) (tr : List Ev)

/-- Prefix a trace onto a drain result. -/
def DrainRes.withTrace (pre : List Ev) : DrainRes → DrainRes
  | .drained c e tr => .drained c e (pre ++ tr)
  | .failedWouldBlock c e tr => .failedWouldBlock c e (pre ++ tr)
  | .failedErr c e tr => .failedErr c e (pre ++ tr)
  | .diverged c tr => .diverged c (pre ++ tr)

/-- One drain loop, fuelled.  Each successful transport write moves
`min w available` bytes from `conn->out` to the wire and adds them to
`wire_bytes_out` (a `uint64_t`).  The fuel only bounds the number of
loop iterations; `drainOut` below supplies `c.out.length`, which is
always sufficient because every non-diverging iteration moves at least
one byte. -/
def drainOutAux : Nat → Conn → Env → DrainRes
  | 0, c, e => if c.out = [] then .drained c e [] else .diverged c []
  | fuel' + 1, c, e =>
    if c.out = [] then .drained c e []
    else
      match e.writes e.wi with
      | .wouldBlock => .failedWouldBlock c { e with wi := e.wi + 1 } []
      | .errOther => .failedErr c { e with wi := e.wi + 1 } []
      | .ok w =>
        let n := min w c.out.length
        if n = 0 then .diverged c []
        else
          let sent := (c.out.take n).map Ev.wire
          let c' : Conn := { c with out := c.out.drop n,
                                    wire_bytes_out := (c.wire_bytes_out + n) % 2 ^ 64 }
          (drainOutAux fuel' c' { e with wi := e.wi + 1 }).withTrace sent

/-- The drain loop of src/tls/s2n_config.h lines 98-104 (and, with
errno inspection by the caller, lines 253-263). -/
def drainOut (c : Conn) (e : Env) : DrainRes :=
  drainOutAux c.out.length c e

/-- Result of `s2n_flush`: return value 0 with the final `*more`, or
-1 with the final `*more`, or divergence. -/
inductive FlushRes
  | ok (more : Nat) (c : Conn) (e : Env) (tr : List Ev)
  | err (ec : ECode) (more : Nat) (c : Conn) (e : Env) (tr : List Ev)
  | diverged (c : Conn) (tr : List Ev)

/-- Prefix a trace onto a flush result. -/
def FlushRes.withTrace (pre : List Ev) : FlushRes → FlushRes
  | .ok m c e tr => .ok m c e (pre ++ tr)
  | .err ec m c e tr => .err ec m c e (pre ++ tr)
  | .diverged c tr => .diverged c (pre ++ tr)

/-- Lines 105-108 of src/tls/s2n_config.h: if `conn->closing`, set
`conn->closed = 1` and `GUARD(s2n_connection_wipe(conn))`.  The wipe's
teardown is external scope (it does not touch the fields modelled
here); only its possible failure is modelled, through the oracle. -/
def flushClosingStep (m : Nat) (c : Conn) (e : Env) (tr : List Ev) :
    FlushRes ⊕ (Conn × Env × List Ev) :=
  if c.closing then
    let c2 : Conn := { c with closed := true }
    let tr2 := tr ++ [Ev.closedSet]
    let e2 : Env := { e with wpi := e.wpi + 1 }
    if e.wipeOk e.wpi = false then .inl (.err .wipeErr m c2 e2 tr2)
    else .inr (c2, e2, tr2)
  else .inr (c, e, tr)

/-- Body of `s2n_flush` (src/tls/s2n_config.h lines 90-143).  The
`goto WRITE` is expressed as recursion on a pass counter; three passes
always suffice because each re-entry clears one of the two alert
slots.  `m` is the value currently stored in `*more`. -/
def s2n_flush_pass : Nat → Nat → Conn → Env → FlushRes
  | 0, _, c, _ => .diverged c []
  | fuel + 1, m, c, e =>
    match drainOut c e with
    | .diverged c1 tr1 => .diverged c1 tr1
    | .failedWouldBlock c1 e1 tr1 => .err .ioErr m c1 e1 tr1
    | .failedErr c1 e1 tr1 => .err .ioErr m c1 e1 tr1
    | .drained c1 e1 tr1 =>
      match flushClosingStep m c1 e1 tr1 with
      | .inl r => r
      | .inr (c2, e2, tr2) =>
        let c3 : Conn := { c2 with out := [] }
        if c3.reader_alert_out = 2 then
          let tr3 := tr2 ++ [Ev.recWrite .alertRec 2]
          let e3 : Env := { e2 with rwi := e2.rwi + 1 }
          if e2.recw e2.rwi = false then .err .recordErr m c3 e3 tr3
          else
            let c4 : Conn := { c3 with out := alertRecordBytes .alertReader,
                                       reader_alert_out := 0, closing := true }
            (s2n_flush_pass fuel m c4 e3).withTrace tr3
        else if c3.writer_alert_out = 2 then
          let tr3 := tr2 ++ [Ev.recWrite .alertRec 2]
          let e3 : Env := { e2 with rwi := e2.rwi + 1 }
          if e2.recw e2.rwi = false then .err .recordErr m c3 e3 tr3
          else
            let c4 : Conn := { c3 with out := alertRecordBytes .alertWriter,
                                       writer_alert_out := 0, closing := true }
            (s2n_flush_pass fuel m c4 e3).withTrace tr3
        else
          .ok 0 c3 e2 tr2

/-- C function `int s2n_flush(struct s2n_connection *conn, int *more)`:
`*more = 1` on entry; error returns leave it, the single success
return stores 0 first. -/
def s2n_flush (c : Conn) (e : Env) : FlushRes :=
  s2n_flush_pass 3 1 c e

/-- Result of `adjust_record_size_if_needed`: return value 0 or -1. -/
inductive AdjRes
  | ok (c : Conn) (e : Env) (tr : List Ev)
  | err (ec : ECode) (c : Conn) (e : Env) (tr : List Ev)

/-- Truncating conversion `uint32_t elapsed_millis = elapsed_nanos / 1000000` where
`elapsed_nanos` is a `uint64_t`. -/
def elapsedMillisOf (nanos : Nat) : Nat := ((nanos % 2 ^ 64) / 1000000) % 2 ^ 32

/-- Outcome of the decision part of `adjust_record_size_if_needed`
(src/tls/s2n_config.h lines 157-184): the chosen `new_fragment_size`,
the connection after any counter reset, the environment after any
timer read, and the emitted events. -/
structure AdjustDecision where
  newSize : Nat
  conn : Conn
  env : Env
  tr : List Ev

/-- Lines 157-184 of src/tls/s2n_config.h: decide `new_fragment_size`.
At MAX, read-and-reset the idle timer unconditionally and shrink (also
zeroing `dyn_record_sz_bytes_out`) when the truncated elapsed
milliseconds reach the idle threshold; otherwise grow once
`dyn_record_sz_bytes_out` reaches the bytes-out threshold, resetting
the idle timer. -/
def adjustDecision (c : Conn) (e : Env) : AdjustDecision :=
  if c.curr_max_fragment_size = c.config.max_fragment_size then
    if c.config.idle_millis_threshold ≤ elapsedMillisOf (e.elapsed e.ei) then
      { newSize := S2N_DEFAULT_FRAGMENT_LENGTH,
        conn := { c with dyn_record_sz_bytes_out := 0 },
        env := { e with ei := e.ei + 1 }, tr := [Ev.timerReset (e.elapsed e.ei)] }
    else
      { newSize := c.curr_max_fragment_size, conn := c, env := { e with ei := e.ei + 1 },
        tr := [Ev.timerReset (e.elapsed e.ei)] }
  else if c.config.bytes_out_threshold ≤ c.dyn_record_sz_bytes_out then
    { newSize := c.config.max_fragment_size, conn := c,
      env := { e with ei := e.ei + 1 }, tr := [Ev.timerReset (e.elapsed e.ei)] }
  else
    { newSize := c.curr_max_fragment_size, conn := c, env := e, tr := [] }

/-- Lines 186-200 of src/tls/s2n_config.h: if the decided size differs
from the current one, resize the output stuffer; on
`S2N_ERR_REALLOC` keep the old size and return success (best effort),
on any other resize failure return -1, and install the new size only
when the resize succeeds. -/
def installNewFragmentSize (c : Conn) (curr new : Nat) (e : Env) (tr : List Ev) : AdjRes :=
  if new = curr then .ok c e tr
  else
    match e.resize e.ri with
    | .errRealloc => .ok c { e with ri := e.ri + 1 } tr
    | .errOther => .err .resizeErr c { e with ri := e.ri + 1 } tr
    | .ok => .ok { c with curr_max_fragment_size := new } { e with ri := e.ri + 1 } tr

/-- C function `int adjust_record_size_if_needed(struct s2n_connection *conn)`
(src/tls/s2n_config.h lines 155-203). -/
def adjust_record_size_if_needed (c : Conn) (e : Env) : AdjRes :=
  installNewFragmentSize (adjustDecision c e).conn c.curr_max_fragment_size
    (adjustDecision c e).newSize (adjustDecision c e).env (adjustDecision c e).tr

/-- Result of `s2n_send`: non-negative return value with the final
`*more`, or -1 with the final `*more` (`none` when the error path never
stores to `*more`, as on the already-closed check), or divergence. -/
inductive SendRes
  | ok (bytes : Nat) (more : Nat) (c : Conn) (e : Env) (tr : List Ev)
  | err (ec : ECode) (more : Option Nat) (c : Conn) (e : Env) (tr : List Ev)
  | diverged (c : Conn) (tr : List Ev)

/-- Prefix a trace onto a send result. -/
def SendRes.withTrace (pre : List Ev) : SendRes → SendRes
  | .ok b m c e tr => .ok b m c e (pre ++ tr)
  | .err ec m c e tr => .err ec m c e (pre ++ tr)
  | .diverged c tr => .diverged c (pre ++ tr)

/-- The CBC one-byte-split guard of src/tls/s2n_config.h lines 238-243:
protocol below TLS 1.1, active cipher in CBC mode, natural chunk larger
than one byte, and the hack not yet used in this call. -/
def hackTriggered (c : Conn) (cbcHackUsed : Bool) (size maxPayload : Nat) : Bool :=
  decide (c.actual_protocol_version < S2N_TLS11) &&
    (c.cipher_type == CipherType.cbc) &&
    decide (1 < min size maxPayload) && (!cbcHackUsed)

/-- Chunk size chosen for the current loop iteration:
`in.size = min size max_payload_size`, forced to 1 when the CBC guard
fires. -/
def chunkSize (c : Conn) (cbcHackUsed : Bool) (size maxPayload : Nat) : Nat :=
  if hackTriggered c cbcHackUsed size maxPayload then 1 else min size maxPayload

/-- The `while (size)` loop of `s2n_send` (src/tls/s2n_config.h lines
232-267), fuelled.  Each iteration rewrites `conn->out`, emits one
application-data record of the chosen chunk, accounts the chunk in
`bytes_written` and `dyn_record_sz_bytes_out` (a `uint32_t`), and
drains `conn->out`; `EWOULDBLOCK` returns `bytes_written` (leaving
`*more` at 1), any other transport error returns -1.  The fuel only
bounds iterations; `size` is sufficient since every iteration consumes
at least one input byte, and a zero-sized chunk (possible only when
`max_payload_size = 0`) makes the C loop spin forever, modelled as
divergence. -/
def s2n_send_loop_aux : Nat → Conn → Env → Nat → Bool → Nat → Nat → SendRes
  | 0, c, e, _, _, bytesWritten, size =>
    if size = 0 then .ok bytesWritten 0 c e [] else .diverged c []
  | fuel' + 1, c, e, maxPayload, cbcHackUsed, bytesWritten, size =>
    if size = 0 then .ok bytesWritten 0 c e []
    else
      if min size maxPayload = 0 then .diverged c []
      else
        let sz := chunkSize c cbcHackUsed size maxPayload
        let hack' := cbcHackUsed || hackTriggered c cbcHackUsed size maxPayload
        let c1 : Conn := { c with out := [] }
        if e.recw e.rwi = false then
          .err .recordErr (some 1) c1 { e with rwi := e.rwi + 1 }
            [Ev.recWrite .applicationData sz]
        else
          let c2 : Conn :=
            { c1 with
              out := appRecordBytes sz
              dyn_record_sz_bytes_out := (c1.dyn_record_sz_bytes_out + sz) % 2 ^ 32 }
          let e1 : Env := { e with rwi := e.rwi + 1 }
          let bw' := bytesWritten + sz
          match drainOut c2 e1 with
          | .diverged cx tr => .diverged cx (Ev.recWrite .applicationData sz :: tr)
          | .failedWouldBlock c4 e2 tr => .ok bw' 1 c4 e2 (Ev.recWrite .applicationData sz :: tr)
          | .failedErr c4 e2 tr => .err .ioErr (some 1) c4 e2 (Ev.recWrite .applicationData sz :: tr)
          | .drained c4 e2 tr =>
            (s2n_send_loop_aux fuel' c4 e2 maxPayload hack' bw' (size - sz)).withTrace
              (Ev.recWrite .applicationData sz :: tr)

/-- The per-chunk loop of `s2n_send`, entered with enough fuel for the
whole input. -/
def s2n_send_loop (c : Conn) (e : Env) (maxPayload : Nat) (cbcHackUsed : Bool)
    (bytesWritten : Nat) (size : Nat) : SendRes :=
  s2n_send_loop_aux size c e maxPayload cbcHackUsed bytesWritten size

/-- C function `ssize_t s2n_send(struct s2n_connection *conn, void *buf, ssize_t
size, int *more)` (src/tls/s2n_config.h lines 205-272): fail with
`S2N_ERR_CLOSED` if already closed (without touching `*more`), flush
pending output, set `*more = 1`, run the fragment-size adjustment,
fetch the maximal record payload from the collaborator, then run the
chunk loop. -/
def s2n_send (c : Conn) (size : Nat) (e : Env) : SendRes :=
  if c.closed then .err .closedErr none c e []
  else
    match s2n_flush c e with
    | .diverged cx tr => .diverged cx tr
    | .err ec m c1 e1 tr => .err ec (some m) c1 e1 tr
    | .ok _ c1 e1 tr1 =>
      match adjust_record_size_if_needed c1 e1 with
      | .err ec c2 e2 tr2 => .err ec (some 1) c2 e2 (tr1 ++ tr2)
      | .ok c2 e2 tr2 =>
        if e2.maxPayload < 0 then .err .payloadErr (some 1) c2 e2 (tr1 ++ tr2)
        else
          (s2n_send_loop c2 e2 e2.maxPayload.toNat false 0 size).withTrace (tr1 ++ tr2)

/-- Connection reached by a drain result (divergence keeps the state at
the point the loop spins). -/
def DrainRes.conn : DrainRes → Conn
  | .drained c _ _ => c
  | .failedWouldBlock c _ _ => c
  | .failedErr c _ _ => c
  | .diverged c _ => c

/-- Trace of a drain result. -/
def DrainRes.trace : DrainRes → List Ev
  | .drained _ _ tr => tr
  | .failedWouldBlock _ _ tr => tr
  | .failedErr _ _ tr => tr
  | .diverged _ tr => tr

/-- Connection reached by a flush result. -/
def FlushRes.conn : FlushRes → Conn
  | .ok _ c _ _ => c
  | .err _ _ c _ _ => c
  | .diverged c _ => c

/-- Trace of a flush result. -/
def FlushRes.trace : FlushRes → List Ev
  | .ok _ _ _ tr => tr
  | .err _ _ _ _ tr => tr
  | .diverged _ tr => tr

/-- Whether a flush returned 0. -/
def FlushRes.isOk : FlushRes → Bool
  | .ok _ _ _ _ => true
  | _ => false

/-- Whether a flush returned -1. -/
def FlushRes.isErr : FlushRes → Bool
  | .err _ _ _ _ _ => true
  | _ => false

/-- The `*more` value observed by the caller of `s2n_flush` (none on
divergence). -/
def FlushRes.more : FlushRes → Option Nat
  | .ok m _ _ _ => some m
  | .err _ m _ _ _ => some m
  | .diverged _ _ => none

/-- Connection reached by an adjust result. -/
def AdjRes.conn : AdjRes → Conn
  | .ok c _ _ => c
  | .err _ c _ _ => c

/-- Trace of an adjust result. -/
def AdjRes.trace : AdjRes → List Ev
  | .ok _ _ tr => tr
  | .err _ _ _ tr => tr

/-- Whether the adjustment returned 0. -/
def AdjRes.isOk : AdjRes → Bool
  | .ok _ _ _ => true
  | .err _ _ _ _ => false

/-- Connection reached by a send result. -/
def SendRes.conn : SendRes → Conn
  | .ok _ _ c _ _ => c
  | .err _ _ c _ _ => c
  | .diverged c _ => c

/-- Trace of a send result. -/
def SendRes.trace : SendRes → List Ev
  | .ok _ _ _ _ tr => tr
  | .err _ _ _ _ tr => tr
  | .diverged _ tr => tr

/-- Return value and final `*more` of a successful send. -/
def SendRes.result : SendRes → Option (Nat × Nat)
  | .ok b m _ _ _ => some (b, m)
  | _ => none

/-- Error code and final `*more` of a failing send. -/
def SendRes.errInfo : SendRes → Option (ECode × Option Nat)
  | .err ec m _ _ _ => some (ec, m)
  | _ => none

/-- An environment with constant response streams, used to build
concrete runs. -/
def mkEnv (w : TResp) (nanos : Nat) (r : RResp) (rec : Bool) (wp : Bool)
    (mp : Int) : Env :=
  { writes := fun _ => w, wi := 0, elapsed := fun _ => nanos, ei := 0,
    resize := fun _ => r, ri := 0, recw := fun _ => rec, rwi := 0,
    wipeOk := fun _ => wp, wpi := 0, maxPayload := mp }

/-- A fully benign environment: large transport writes, no elapsed
time, successful resizes, record writes and wipes, payload bound 1000. -/
def okEnv : Env := mkEnv (.ok 1000000000) 0 .ok true true 1000

/-- A freshly established connection with a sample configuration. -/
def baseConn : Conn :=
  { closed := false, closing := false,
    curr_max_fragment_size := S2N_DEFAULT_FRAGMENT_LENGTH,
    dyn_record_sz_bytes_out := 0, wire_bytes_out := 0, out := [],
    reader_alert_out := 0, writer_alert_out := 0,
    actual_protocol_version := 33, cipher_type := .stream,
    config := { bytes_out_threshold := 100, idle_millis_threshold := 50,
                max_fragment_size := 4096 } }

/-- Whether a symbolic output byte belongs to an alert record. -/
def isAlertByte : OutByte → Bool
  | .app => false
  | .alertReader => true
  | .alertWriter => true

/-- Scan of a trace checking that every `closedSet` event is strictly
preceded by some alert byte reaching the wire; `seen` records whether
an alert wire byte has occurred so far. -/
def abcAux (seen : Bool) : List Ev → Bool
  | [] => true
  | Ev.closedSet :: t => seen && abcAux seen t
  | Ev.wire b :: t => abcAux (seen || isAlertByte b) t
  | Ev.timerReset _ :: t => abcAux seen t
  | Ev.recWrite _ _ :: t => abcAux seen t

/-- The alert-before-close ordering property of a trace: every point at
which the connection is marked closed is preceded by an alert record
byte placed on the transport. -/
def alertBeforeClosedB (tr : List Ev) : Bool := abcAux false tr

/-- Whether an alert wire byte occurs in the trace, continuing from
`seen` (the scanning state of `abcAux`). -/
def seenWire (b : Bool) : List Ev → Bool
  | [] => b
  | Ev.wire x :: t => seenWire (b || isAlertByte x) t
  | Ev.closedSet :: t => seenWire b t
  | Ev.timerReset _ :: t => seenWire b t
  | Ev.recWrite _ _ :: t => seenWire b t

/-- Payload sizes of the application-data records emitted in a trace,
in order. -/
def recAppSizes : List Ev → List Nat
  | [] => []
  | Ev.recWrite RecType.applicationData n :: t => n :: recAppSizes t
  | Ev.recWrite RecType.alertRec _ :: t => recAppSizes t
  | Ev.wire _ :: t => recAppSizes t
  | Ev.closedSet :: t => recAppSizes t
  | Ev.timerReset _ :: t => recAppSizes t

/-- Ordinary chunk sizing as the spec words it: repeatedly take
`min(remaining input, max payload bytes)` until the input is exhausted
(fuelled; the fuel `greedyChunks` supplies is always sufficient).  This
definition follows the spec's words and serves as the comparison point
for the code's chunking. -/
def greedyChunksAux (m : Nat) : Nat → Nat → List Nat
  | _, 0 => []
  | 0, _ + 1 => []
  | fuel + 1, size + 1 =>
    min (size + 1) m :: greedyChunksAux m fuel (size + 1 - min (size + 1) m)

/-- The spec's chunk-size sequence for input `size` under payload bound
`m`. -/
def greedyChunks (m size : Nat) : List Nat := greedyChunksAux m size size

/-- One externally invocable operation on a connection, together with
the environment it runs against. -/
inductive Op
  | sendOp (size : Nat) (e : Env)
  | adjustOp (e : Env)

/-- Connection state after performing one operation (the state at the
point of return, also for failing or diverging runs). -/
def applyOp (c : Conn) : Op → Conn
  | .sendOp n e => (s2n_send c n e).conn
  | .adjustOp e => (adjust_record_size_if_needed c e).conn

/-- Connection state after a sequence of operations. -/
def applyOps (c : Conn) (ops : List Op) : Conn := ops.foldl applyOp c

/-- Counterexample state for the alert-before-close ordering: the
connection is already marked closing when flush begins, with a writer
alert pending. -/
def cexConn : Conn := { baseConn with closing := true, writer_alert_out := 2 }

/-- A connection with a reader alert pending (and not closing). -/
def alertConn : Conn := { baseConn with reader_alert_out := 2 }

/-- A connection with one undrained byte in the output stuffer. -/
def pendingConn : Conn := { baseConn with out := [OutByte.app] }

/-- An environment whose transport write fails with a non-would-block
error. -/
def errWriteEnv : Env := mkEnv .errOther 0 .ok true true 1000

/-- An environment whose transport write fails with `EWOULDBLOCK`. -/
def wbEnv : Env := mkEnv .wouldBlock 0 .ok true true 1000

/-- An environment whose resize fails with `S2N_ERR_REALLOC`. -/
def reallocEnv : Env := mkEnv (.ok 1000000000) (10 ^ 9) .errRealloc true true 1000

/-- An environment whose resize fails with an error other than
`S2N_ERR_REALLOC`. -/
def resizeErrEnv : Env := mkEnv (.ok 1000000000) (10 ^ 9) .errOther true true 1000

/-- A benign environment reporting a large elapsed time (1 second). -/
def idleEnv : Env := mkEnv (.ok 1000000000) (10 ^ 9) .ok true true 1000

/-- A CBC-mode TLS 1.0 connection (subject to the one-byte split). -/
def cbcConn : Conn :=
  { baseConn with actual_protocol_version := 31, cipher_type := .cbc }

/-- A benign environment with payload bound 3. -/
def smallEnv : Env := mkEnv (.ok 1000000000) 0 .ok true true 3

/-- A connection sitting at the configured maximum fragment size. -/
def maxConn : Conn := { baseConn with curr_max_fragment_size := 4096 }

/-! ### Result plumbing lemmas -/

theorem drainRes_conn_withTrace (pre : List Ev) (r : DrainRes) :
    (r.withTrace pre).conn = r.conn := by
  cases r <;> rfl

theorem drainRes_trace_withTrace (pre : List Ev) (r : DrainRes) :
    (r.withTrace pre).trace = pre ++ r.trace := by
  cases r <;> rfl

theorem flushRes_conn_withTrace (pre : List Ev) (r : FlushRes) :
    (r.withTrace pre).conn = r.conn := by
  cases r <;> rfl

theorem flushRes_trace_withTrace (pre : List Ev) (r : FlushRes) :
    (r.withTrace pre).trace = pre ++ r.trace := by
  cases r <;> rfl

theorem FlushRes.isOk_withTrace (pre : List Ev) (r : FlushRes) :
    (r.withTrace pre).isOk = r.isOk := by
  cases r <;> rfl

theorem FlushRes.isErr_withTrace (pre : List Ev) (r : FlushRes) :
    (r.withTrace pre).isErr = r.isErr := by
  cases r <;> rfl

theorem FlushRes.more_withTrace (pre : List Ev) (r : FlushRes) :
    (r.withTrace pre).more = r.more := by
  cases r <;> rfl

theorem sendRes_conn_withTrace (pre : List Ev) (r : SendRes) :
    (r.withTrace pre).conn = r.conn := by
  cases r <;> rfl

theorem sendRes_trace_withTrace (pre : List Ev) (r : SendRes) :
    (r.withTrace pre).trace = pre ++ r.trace := by
  cases r <;> rfl

/-! ### Drain loop lemmas -/

theorem drainOutAux_empty (fuel : Nat) (c : Conn) (e : Env) (h : c.out = []) :
    drainOutAux fuel c e = .drained c e [] := by
  cases fuel <;> simp [drainOutAux, h]

theorem drainOut_empty (c : Conn) (e : Env) (h : c.out = []) :
    drainOut c e = .drained c e [] :=
  drainOutAux_empty _ c e h

theorem drainOut_headWouldBlock (c : Conn) (e : Env) (h0 : c.out ≠ [])
    (hw : e.writes e.wi = TResp.wouldBlock) :
    drainOut c e = .failedWouldBlock c { e with wi := e.wi + 1 } [] := by
  have hl0 : c.out.length ≠ 0 := by simpa using h0
  obtain ⟨k, hk⟩ := Nat.exists_eq_succ_of_ne_zero hl0
  rw [drainOut, hk]
  simp only [drainOutAux]
  rw [if_neg h0, hw]

theorem drainOut_headErrOther (c : Conn) (e : Env) (h0 : c.out ≠ [])
    (hw : e.writes e.wi = TResp.errOther) :
    drainOut c e = .failedErr c { e with wi := e.wi + 1 } [] := by
  have hl0 : c.out.length ≠ 0 := by simpa using h0
  obtain ⟨k, hk⟩ := Nat.exists_eq_succ_of_ne_zero hl0
  rw [drainOut, hk]
  simp only [drainOutAux]
  rw [if_neg h0, hw]

theorem drainOut_oneShot (c : Conn) (e : Env) (w : Nat) (h0 : c.out ≠ [])
    (hw : e.writes e.wi = TResp.ok w) (hlen : c.out.length ≤ w) :
    drainOut c e = .drained
      { c with out := [], wire_bytes_out := (c.wire_bytes_out + c.out.length) % 2 ^ 64 }
      { e with wi := e.wi + 1 } (c.out.map Ev.wire) := by
  have hl0 : c.out.length ≠ 0 := by simpa using h0
  obtain ⟨k, hk⟩ := Nat.exists_eq_succ_of_ne_zero hl0
  have hmin : min w c.out.length = c.out.length := min_eq_right hlen
  rw [drainOut, hk]
  simp only [drainOutAux]
  rw [if_neg h0, hw]
  simp only [hmin, if_neg hl0]
  rw [drainOutAux_empty k _ _ (by simp)]
  simp [DrainRes.withTrace, List.take_length, hk]

/-! ### Claim C8 -/

/-- C8: every call to `s2n_send` on a connection whose closed flag is
set fails immediately with the Closed error, leaving the connection and
the environment untouched and emitting no events — so nothing is
flushed, the fragment size is not adjusted, and no record is written. -/
theorem claim_C8 (c : Conn) (size : Nat) (e : Env) (h : c.closed = true) :
    s2n_send c size e = .err .closedErr none c e [] := by
  simp [s2n_send, h]

/-- Witness for C8 at a concrete closed connection. -/
theorem claim_C8_witness :
    s2n_send { baseConn with closed := true } 5 okEnv =
      .err .closedErr none { baseConn with closed := true } okEnv [] :=
  claim_C8 { baseConn with closed := true } 5 okEnv rfl

/-! ### Adjustment lemmas -/

theorem adjustDecision_env (c : Conn) (e : Env) :
    (adjustDecision c e).env.resize = e.resize ∧ (adjustDecision c e).env.ri = e.ri := by
  unfold adjustDecision
  repeat' split
  all_goals exact ⟨rfl, rfl⟩

theorem adjustDecision_conn (c : Conn) (e : Env) :
    (adjustDecision c e).conn.curr_max_fragment_size = c.curr_max_fragment_size ∧
    (adjustDecision c e).conn.config = c.config := by
  unfold adjustDecision
  repeat' split
  all_goals exact ⟨rfl, rfl⟩

theorem adjustDecision_newSize (c : Conn) (e : Env) :
    (adjustDecision c e).newSize = c.curr_max_fragment_size ∨
    (adjustDecision c e).newSize = S2N_DEFAULT_FRAGMENT_LENGTH ∨
    (adjustDecision c e).newSize = c.config.max_fragment_size := by
  unfold adjustDecision
  repeat' split
  all_goals simp

theorem adjust_max_stay (c : Conn) (e : Env)
    (hmax : c.curr_max_fragment_size = c.config.max_fragment_size)
    (hlt : elapsedMillisOf (e.elapsed e.ei) < c.config.idle_millis_threshold) :
    adjust_record_size_if_needed c e =
      .ok c { e with ei := e.ei + 1 } [Ev.timerReset (e.elapsed e.ei)] := by
  have hdec : adjustDecision c e =
      ⟨c.curr_max_fragment_size, c, { e with ei := e.ei + 1 },
       [Ev.timerReset (e.elapsed e.ei)]⟩ := by
    unfold adjustDecision
    rw [if_pos hmax, if_neg (not_le.mpr hlt)]
  unfold adjust_record_size_if_needed
  rw [hdec]
  unfold installNewFragmentSize
  rw [if_pos rfl]

theorem adjust_max_shrink (c : Conn) (e : Env)
    (hmax : c.curr_max_fragment_size = c.config.max_fragment_size)
    (hidle : c.config.idle_millis_threshold ≤ elapsedMillisOf (e.elapsed e.ei))
    (hres : e.resize e.ri = RResp.ok) :
    (adjust_record_size_if_needed c e).isOk = true ∧
    (adjust_record_size_if_needed c e).conn.curr_max_fragment_size
      = S2N_DEFAULT_FRAGMENT_LENGTH ∧
    (adjust_record_size_if_needed c e).conn.dyn_record_sz_bytes_out = 0 := by
  have hdec : adjustDecision c e =
      ⟨S2N_DEFAULT_FRAGMENT_LENGTH, { c with dyn_record_sz_bytes_out := 0 },
       { e with ei := e.ei + 1 }, [Ev.timerReset (e.elapsed e.ei)]⟩ := by
    unfold adjustDecision
    rw [if_pos hmax, if_pos hidle]
  unfold adjust_record_size_if_needed
  rw [hdec]
  unfold installNewFragmentSize
  by_cases heq : S2N_DEFAULT_FRAGMENT_LENGTH = c.curr_max_fragment_size
  · rw [if_pos heq]
    exact ⟨rfl, heq.symm ▸ rfl, rfl⟩
  · rw [if_neg heq]
    dsimp only
    rw [hres]
    exact ⟨rfl, rfl, rfl⟩

theorem adjust_max_trace (c : Conn) (e : Env)
    (hmax : c.curr_max_fragment_size = c.config.max_fragment_size) :
    (adjust_record_size_if_needed c e).trace = [Ev.timerReset (e.elapsed e.ei)] := by
  unfold adjust_record_size_if_needed
  by_cases hidle : c.config.idle_millis_threshold ≤ elapsedMillisOf (e.elapsed e.ei)
  · have hdec : adjustDecision c e =
        ⟨S2N_DEFAULT_FRAGMENT_LENGTH, { c with dyn_record_sz_bytes_out := 0 },
         { e with ei := e.ei + 1 }, [Ev.timerReset (e.elapsed e.ei)]⟩ := by
      unfold adjustDecision
      rw [if_pos hmax, if_pos hidle]
    rw [hdec]
    unfold installNewFragmentSize
    split
    · rfl
    · dsimp only
      cases e.resize e.ri <;> rfl
  · have hdec : adjustDecision c e =
        ⟨c.curr_max_fragment_size, c, { e with ei := e.ei + 1 },
         [Ev.timerReset (e.elapsed e.ei)]⟩ := by
      unfold adjustDecision
      rw [if_pos hmax, if_neg hidle]
    rw [hdec]
    unfold installNewFragmentSize
    rw [if_pos rfl]
    rfl

/-! ### Claim C2 -/

/-- C2: in `adjust_record_size_if_needed`, once a size change has been
decided, a resize failing with the allocation error
(`S2N_ERR_REALLOC`) makes the function return success with
`curr_max_fragment_size` unchanged; a resize failing any other way
makes it return the fatal error; and the decided size is installed
exactly when the resize succeeds. -/
theorem claim_C2 (c : Conn) (e : Env)
    (hch : (adjustDecision c e).newSize ≠ c.curr_max_fragment_size) :
    (e.resize e.ri = RResp.errRealloc →
      (adjust_record_size_if_needed c e).isOk = true ∧
      (adjust_record_size_if_needed c e).conn.curr_max_fragment_size
        = c.curr_max_fragment_size) ∧
    (e.resize e.ri = RResp.errOther →
      (adjust_record_size_if_needed c e).isOk = false ∧
      (adjust_record_size_if_needed c e).conn.curr_max_fragment_size
        = c.curr_max_fragment_size) ∧
    (e.resize e.ri = RResp.ok →
      (adjust_record_size_if_needed c e).isOk = true ∧
      (adjust_record_size_if_needed c e).conn.curr_max_fragment_size
        = (adjustDecision c e).newSize) := by
  have henv := adjustDecision_env c e
  have hconn := adjustDecision_conn c e
  unfold adjust_record_size_if_needed installNewFragmentSize
  rw [if_neg hch, henv.1, henv.2]
  refine ⟨fun h => ?_, fun h => ?_, fun h => ?_⟩ <;> rw [h]
  · exact ⟨rfl, hconn.1⟩
  · exact ⟨rfl, hconn.1⟩
  · exact ⟨rfl, rfl⟩

/-- Witness for C2: a shrink-sized change under each of the three
resize outcomes. -/
theorem claim_C2_witness :
    ((adjust_record_size_if_needed maxConn reallocEnv).isOk = true ∧
     (adjust_record_size_if_needed maxConn reallocEnv).conn.curr_max_fragment_size
       = maxConn.curr_max_fragment_size) ∧
    ((adjust_record_size_if_needed maxConn resizeErrEnv).isOk = false ∧
     (adjust_record_size_if_needed maxConn resizeErrEnv).conn.curr_max_fragment_size
       = maxConn.curr_max_fragment_size) ∧
    ((adjust_record_size_if_needed maxConn idleEnv).isOk = true ∧
     (adjust_record_size_if_needed maxConn idleEnv).conn.curr_max_fragment_size
       = (adjustDecision maxConn idleEnv).newSize) :=
  ⟨(claim_C2 maxConn reallocEnv (by decide)).1 rfl,
   (claim_C2 maxConn resizeErrEnv (by decide)).2.1 rfl,
   (claim_C2 maxConn idleEnv (by decide)).2.2 rfl⟩

/-! ### Claim C7 -/

/-- C7: for every adjustment made while the size is at MAX, the idle
timer is read and reset exactly once, unconditionally, as one step; if
the (truncated) elapsed milliseconds meet or exceed the idle threshold
— and the output-buffer resize succeeds — the size shrinks to
`S2N_DEFAULT_FRAGMENT_LENGTH` and `dyn_record_sz_bytes_out` resets to
0; below the threshold the call succeeds leaving the connection, and in
particular the size at MAX, untouched. -/
theorem claim_C7 (c : Conn) (e : Env)
    (hmax : c.curr_max_fragment_size = c.config.max_fragment_size) :
    (adjust_record_size_if_needed c e).trace = [Ev.timerReset (e.elapsed e.ei)] ∧
    (c.config.idle_millis_threshold ≤ elapsedMillisOf (e.elapsed e.ei) →
      e.resize e.ri = RResp.ok →
      (adjust_record_size_if_needed c e).isOk = true ∧
      (adjust_record_size_if_needed c e).conn.curr_max_fragment_size
        = S2N_DEFAULT_FRAGMENT_LENGTH ∧
      (adjust_record_size_if_needed c e).conn.dyn_record_sz_bytes_out = 0) ∧
    (elapsedMillisOf (e.elapsed e.ei) < c.config.idle_millis_threshold →
      (adjust_record_size_if_needed c e).isOk = true ∧
      (adjust_record_size_if_needed c e).conn = c) := by
  refine ⟨adjust_max_trace c e hmax, fun hidle hres => adjust_max_shrink c e hmax hidle hres,
    fun hlt => ?_⟩
  rw [adjust_max_stay c e hmax hlt]
  exact ⟨rfl, rfl⟩

/-- Witness for C7: the shrink case after one second idle and the
stay case with no elapsed time. -/
theorem claim_C7_witness :
    (adjust_record_size_if_needed maxConn idleEnv).trace
      = [Ev.timerReset (idleEnv.elapsed idleEnv.ei)] ∧
    ((adjust_record_size_if_needed maxConn idleEnv).isOk = true ∧
     (adjust_record_size_if_needed maxConn idleEnv).conn.curr_max_fragment_size
       = S2N_DEFAULT_FRAGMENT_LENGTH ∧
     (adjust_record_size_if_needed maxConn idleEnv).conn.dyn_record_sz_bytes_out = 0) ∧
    ((adjust_record_size_if_needed maxConn okEnv).isOk = true ∧
     (adjust_record_size_if_needed maxConn okEnv).conn = maxConn) :=
  ⟨(claim_C7 maxConn idleEnv rfl).1,
   (claim_C7 maxConn idleEnv rfl).2.1 (by decide) rfl,
   (claim_C7 maxConn okEnv rfl).2.2 (by decide)⟩

/-! ### Claim C9 -/

/-- C9: the idle-shrink comparison is over whole milliseconds obtained
by truncating division of the elapsed nanoseconds by one million: for
every elapsed duration strictly below `idle_millis_threshold * 10^6`
nanoseconds the shrink does not trigger and the adjustment leaves the
connection unchanged. -/
theorem claim_C9 (c : Conn) (e : Env)
    (hmax : c.curr_max_fragment_size = c.config.max_fragment_size)
    (hT : c.config.idle_millis_threshold < 2 ^ 32)
    (hlt : e.elapsed e.ei < c.config.idle_millis_threshold * 1000000) :
    (adjust_record_size_if_needed c e).isOk = true ∧
    (adjust_record_size_if_needed c e).conn = c := by
  have hms : elapsedMillisOf (e.elapsed e.ei) < c.config.idle_millis_threshold := by
    unfold elapsedMillisOf
    have h32 : (2 : Nat) ^ 32 = 4294967296 := by norm_num
    have h64 : (2 : Nat) ^ 64 = 18446744073709551616 := by norm_num
    rw [h32, h64]
    rw [h32] at hT
    omega
  rw [adjust_max_stay c e hmax hms]
  exact ⟨rfl, rfl⟩

/-- Witness for C9 at threshold 50 ms with elapsed 50 ms minus one
nanosecond. -/
theorem claim_C9_witness :
    (adjust_record_size_if_needed maxConn
      (mkEnv (.ok 1000000000) (50 * 1000000 - 1) .ok true true 1000)).isOk = true ∧
    (adjust_record_size_if_needed maxConn
      (mkEnv (.ok 1000000000) (50 * 1000000 - 1) .ok true true 1000)).conn = maxConn :=
  claim_C9 maxConn (mkEnv (.ok 1000000000) (50 * 1000000 - 1) .ok true true 1000)
    rfl (by decide) (by decide)

/-! ### Flush lemmas -/

theorem flushClosingStep_not (m : Nat) (c : Conn) (e : Env) (tr : List Ev)
    (h : c.closing = false) :
    flushClosingStep m c e tr = .inr (c, e, tr) := by
  simp [flushClosingStep, h]

theorem flushClosingStep_wipeFail (m : Nat) (c : Conn) (e : Env) (tr : List Ev)
    (h : c.closing = true) (hw : e.wipeOk e.wpi = false) :
    flushClosingStep m c e tr =
      .inl (.err .wipeErr m { c with closed := true } { e with wpi := e.wpi + 1 }
        (tr ++ [Ev.closedSet])) := by
  simp [flushClosingStep, h, hw]

theorem flushClosingStep_wipeOk (m : Nat) (c : Conn) (e : Env) (tr : List Ev)
    (h : c.closing = true) (hw : e.wipeOk e.wpi = true) :
    flushClosingStep m c e tr =
      .inr ({ c with closed := true }, { e with wpi := e.wpi + 1 },
        tr ++ [Ev.closedSet]) := by
  simp [flushClosingStep, h, hw]

theorem s2n_flush_pass_more : ∀ (fuel m : Nat) (c : Conn) (e : Env),
    ((s2n_flush_pass fuel m c e).isErr = true →
      (s2n_flush_pass fuel m c e).more = some m) ∧
    ((s2n_flush_pass fuel m c e).isOk = true →
      (s2n_flush_pass fuel m c e).more = some 0) := by
  intro fuel
  induction fuel with
  | zero =>
    intro m c e
    exact ⟨fun h => by simp [s2n_flush_pass, FlushRes.isErr] at h,
           fun h => by simp [s2n_flush_pass, FlushRes.isOk] at h⟩
  | succ fuel ih =>
    intro m c e
    unfold s2n_flush_pass
    cases hdr : drainOut c e with
    | diverged c1 tr1 =>
      exact ⟨fun h => by simp [FlushRes.isErr] at h, fun h => by simp [FlushRes.isOk] at h⟩
    | failedWouldBlock c1 e1 tr1 =>
      exact ⟨fun _ => rfl, fun h => by simp [FlushRes.isOk] at h⟩
    | failedErr c1 e1 tr1 =>
      exact ⟨fun _ => rfl, fun h => by simp [FlushRes.isOk] at h⟩
    | drained c1 e1 tr1 =>
      dsimp only
      by_cases hcg : c1.closing = true
      · cases hwp : e1.wipeOk e1.wpi with
        | false =>
          rw [flushClosingStep_wipeFail m c1 e1 tr1 hcg hwp]
          exact ⟨fun _ => rfl, fun h => by simp [FlushRes.isOk] at h⟩
        | true =>
          rw [flushClosingStep_wipeOk m c1 e1 tr1 hcg hwp]
          dsimp only
          by_cases hra : c1.reader_alert_out = 2
          · rw [if_pos hra]
            cases hrw : e1.recw e1.rwi with
            | false =>
              rw [if_pos rfl]
              exact ⟨fun _ => rfl, fun h => by simp [FlushRes.isOk] at h⟩
            | true =>
              rw [if_neg (by simp)]
              rw [FlushRes.isErr_withTrace, FlushRes.isOk_withTrace, FlushRes.more_withTrace]
              exact ih m _ _
          · rw [if_neg hra]
            by_cases hwa : c1.writer_alert_out = 2
            · rw [if_pos hwa]
              cases hrw : e1.recw e1.rwi with
              | false =>
                rw [if_pos rfl]
                exact ⟨fun _ => rfl, fun h => by simp [FlushRes.isOk] at h⟩
              | true =>
                rw [if_neg (by simp)]
                rw [FlushRes.isErr_withTrace, FlushRes.isOk_withTrace, FlushRes.more_withTrace]
                exact ih m _ _
            · rw [if_neg hwa]
              exact ⟨fun h => by simp [FlushRes.isErr] at h, fun _ => rfl⟩
      · rw [flushClosingStep_not m c1 e1 tr1 (Bool.not_eq_true _ ▸ hcg)]
        dsimp only
        by_cases hra : c1.reader_alert_out = 2
        · rw [if_pos hra]
          cases hrw : e1.recw e1.rwi with
          | false =>
            rw [if_pos rfl]
            exact ⟨fun _ => rfl, fun h => by simp [FlushRes.isOk] at h⟩
          | true =>
            rw [if_neg (by simp)]
            rw [FlushRes.isErr_withTrace, FlushRes.isOk_withTrace, FlushRes.more_withTrace]
            exact ih m _ _
        · rw [if_neg hra]
          by_cases hwa : c1.writer_alert_out = 2
          · rw [if_pos hwa]
            cases hrw : e1.recw e1.rwi with
            | false =>
              rw [if_pos rfl]
              exact ⟨fun _ => rfl, fun h => by simp [FlushRes.isOk] at h⟩
            | true =>
              rw [if_neg (by simp)]
              rw [FlushRes.isErr_withTrace, FlushRes.isOk_withTrace, FlushRes.more_withTrace]
              exact ih m _ _
          · rw [if_neg hwa]
            exact ⟨fun h => by simp [FlushRes.isErr] at h, fun _ => rfl⟩

/-! ### Claim C10 -/

/-- C10: `s2n_flush` stores 1 into `*more` on entry and stores 0 only
on its single fully-successful return path, so every error return of
`s2n_flush` leaves the caller observing `*more = 1`, and every
successful return observes `*more = 0`. -/
theorem claim_C10 (c : Conn) (e : Env) :
    ((s2n_flush c e).isErr = true → (s2n_flush c e).more = some 1) ∧
    ((s2n_flush c e).isOk = true → (s2n_flush c e).more = some 0) :=
  s2n_flush_pass_more 3 1 c e

/-- Witness for C10: a transport-failing flush observes `*more = 1`, a
clean flush observes `*more = 0`. -/
theorem claim_C10_witness :
    (s2n_flush pendingConn errWriteEnv).more = some 1 ∧
    (s2n_flush baseConn okEnv).more = some 0 :=
  ⟨(claim_C10 pendingConn errWriteEnv).1 (by decide),
   (claim_C10 baseConn okEnv).2 (by decide)⟩

/-! ### Alert-before-close scan lemmas -/

theorem abcAux_mono : ∀ (l : List Ev) (b : Bool),
    abcAux b l = true → abcAux true l = true := by
  intro l
  induction l with
  | nil => intro b _; rfl
  | cons hd t iht =>
    intro b h
    cases hd with
    | closedSet =>
      simp only [abcAux, Bool.and_eq_true] at h ⊢
      exact ⟨by trivial, iht b h.2⟩
    | wire x =>
      simp only [abcAux, Bool.true_or] at h ⊢
      exact iht _ h
    | timerReset n =>
      simp only [abcAux] at h ⊢
      exact iht b h
    | recWrite ty n =>
      simp only [abcAux] at h ⊢
      exact iht b h

theorem abc_of_false (l : List Ev) (h : abcAux false l = true) :
    ∀ b, abcAux b l = true := by
  intro b
  cases b
  · exact h
  · exact abcAux_mono l false h

theorem abc_append : ∀ (l1 l2 : List Ev) (b : Bool),
    abcAux b (l1 ++ l2) = (abcAux b l1 && abcAux (seenWire b l1) l2) := by
  intro l1
  induction l1 with
  | nil => intro l2 b; simp [abcAux, seenWire]
  | cons hd t iht =>
    intro l2 b
    cases hd with
    | closedSet => simp [abcAux, seenWire, iht, Bool.and_assoc]
    | wire x => simp [abcAux, seenWire, iht]
    | timerReset n => simp [abcAux, seenWire, iht]
    | recWrite ty n => simp [abcAux, seenWire, iht]

theorem abc_wire_map : ∀ (l : List OutByte) (b : Bool),
    abcAux b (l.map Ev.wire) = true := by
  intro l
  induction l with
  | nil => intro b; rfl
  | cons hd t iht => intro b; simp only [List.map_cons, abcAux]; exact iht _

theorem seenWire_map : ∀ (l : List OutByte) (b : Bool),
    seenWire b (l.map Ev.wire) = (b || l.any isAlertByte) := by
  intro l
  induction l with
  | nil => intro b; simp [seenWire]
  | cons hd t iht =>
    intro b
    simp only [List.map_cons, seenWire, iht, List.any_cons]
    rw [Bool.or_assoc]

theorem abcAux_append_of (l1 l2 : List Ev) (b : Bool)
    (h1 : abcAux b l1 = true) (h2 : abcAux false l2 = true) :
    abcAux b (l1 ++ l2) = true := by
  rw [abc_append, h1, abc_of_false l2 h2 (seenWire b l1)]
  rfl

theorem abc_closed_block (o : List OutByte) (b : Bool)
    (ha : o.any isAlertByte = true) :
    abcAux b (o.map Ev.wire ++ [Ev.closedSet]) = true := by
  rw [abc_append, abc_wire_map, seenWire_map, ha]
  simp [abcAux]

/-! ### Drain trace and shape lemmas -/

theorem drainOutAux_shape : ∀ (fuel : Nat) (c : Conn) (e : Env), ∃ o wb,
    (drainOutAux fuel c e).conn = { c with out := o, wire_bytes_out := wb } := by
  intro fuel
  induction fuel with
  | zero =>
    intro c e
    rw [drainOutAux]
    split
    · exact ⟨c.out, c.wire_bytes_out, rfl⟩
    · exact ⟨c.out, c.wire_bytes_out, rfl⟩
  | succ fuel ihf =>
    intro c e
    rw [drainOutAux]
    split
    · exact ⟨c.out, c.wire_bytes_out, rfl⟩
    · split
      · exact ⟨c.out, c.wire_bytes_out, rfl⟩
      · exact ⟨c.out, c.wire_bytes_out, rfl⟩
      · rename_i w hw
        dsimp only
        split
        · exact ⟨c.out, c.wire_bytes_out, rfl⟩
        · obtain ⟨o, wb, h⟩ := ihf
            { c with
              out := c.out.drop (min w c.out.length)
              wire_bytes_out := (c.wire_bytes_out + min w c.out.length) % 2 ^ 64 }
            { e with wi := e.wi + 1 }
          refine ⟨o, wb, ?_⟩
          rw [drainRes_conn_withTrace, h]

theorem drainOut_shape (c : Conn) (e : Env) : ∃ o wb,
    (drainOut c e).conn = { c with out := o, wire_bytes_out := wb } :=
  drainOutAux_shape _ c e

theorem drainOutAux_trace : ∀ (fuel : Nat) (c : Conn) (e : Env),
    ∃ k, (drainOutAux fuel c e).trace = ((c.out.take k).map Ev.wire : List Ev) := by
  intro fuel
  induction fuel with
  | zero =>
    intro c e
    rw [drainOutAux]
    split
    · exact ⟨0, rfl⟩
    · exact ⟨0, rfl⟩
  | succ fuel ihf =>
    intro c e
    rw [drainOutAux]
    split
    · exact ⟨0, rfl⟩
    · split
      · exact ⟨0, rfl⟩
      · exact ⟨0, rfl⟩
      · rename_i w hw
        dsimp only
        split
        · exact ⟨0, rfl⟩
        · obtain ⟨k, h⟩ := ihf
            { c with
              out := c.out.drop (min w c.out.length)
              wire_bytes_out := (c.wire_bytes_out + min w c.out.length) % 2 ^ 64 }
            { e with wi := e.wi + 1 }
          refine ⟨min w c.out.length + k, ?_⟩
          rw [drainRes_trace_withTrace, h]
          dsimp only
          rw [List.take_add, List.map_append]

theorem drainOut_trace (c : Conn) (e : Env) :
    ∃ k, (drainOut c e).trace = ((c.out.take k).map Ev.wire : List Ev) :=
  drainOutAux_trace _ c e

theorem drainOutAux_drained : ∀ (fuel : Nat) (c : Conn) (e : Env) (c' : Conn) (e' : Env)
    (tr : List Ev), drainOutAux fuel c e = .drained c' e' tr →
    c'.out = [] ∧ tr = c.out.map Ev.wire := by
  intro fuel
  induction fuel with
  | zero =>
    intro c e c' e' tr h
    rw [drainOutAux] at h
    by_cases h0 : c.out = []
    · rw [if_pos h0] at h
      injection h with h1 h2 h3
      subst h1
      subst h3
      exact ⟨h0, by rw [h0]; rfl⟩
    · rw [if_neg h0] at h
      exact absurd h (by simp)
  | succ fuel ihf =>
    intro c e c' e' tr h
    rw [drainOutAux] at h
    by_cases h0 : c.out = []
    · rw [if_pos h0] at h
      injection h with h1 h2 h3
      subst h1
      subst h3
      exact ⟨h0, by rw [h0]; rfl⟩
    · rw [if_neg h0] at h
      cases hw : e.writes e.wi <;> rw [hw] at h <;> dsimp only at h
      · exact absurd h (by simp)
      · exact absurd h (by simp)
      · rename_i w
        by_cases hn : min w c.out.length = 0
        · rw [if_pos hn] at h
          exact absurd h (by simp)
        · rw [if_neg hn] at h
          cases hrec : drainOutAux fuel
              { c with
                out := c.out.drop (min w c.out.length)
                wire_bytes_out := (c.wire_bytes_out + min w c.out.length) % 2 ^ 64 }
              { e with wi := e.wi + 1 } <;>
            rw [hrec] at h <;> dsimp only [DrainRes.withTrace] at h
          · rename_i c2 e2 tr2
            injection h with h1 h2 h3
            subst h1
            subst h3
            obtain ⟨ho, htr⟩ := ihf _ _ _ _ _ hrec
            refine ⟨ho, ?_⟩
            rw [htr]
            dsimp only
            rw [← List.map_append, List.take_append_drop]
          · exact absurd h (by simp)
          · exact absurd h (by simp)
          · exact absurd h (by simp)

theorem drainOut_drained (c : Conn) (e : Env) (c' : Conn) (e' : Env) (tr : List Ev)
    (h : drainOut c e = .drained c' e' tr) :
    c'.out = [] ∧ tr = c.out.map Ev.wire :=
  drainOutAux_drained _ c e c' e' tr h

/-! ### Flush postcondition and alert ordering -/

theorem FlushRes.withTrace_ok (pre : List Ev) (r : FlushRes) (m' : Nat) (c' : Conn)
    (e' : Env) (tr : List Ev) (h : r.withTrace pre = .ok m' c' e' tr) :
    ∃ tr0, r = .ok m' c' e' tr0 ∧ tr = pre ++ tr0 := by
  cases r with
  | ok m2 c2 e2 tr2 =>
    injection h with h1 h2 h3 h4
    subst h1
    subst h2
    subst h3
    exact ⟨tr2, rfl, h4.symm⟩
  | err ec m2 c2 e2 tr2 => exact absurd h (by simp [FlushRes.withTrace])
  | diverged c2 tr2 => exact absurd h (by simp [FlushRes.withTrace])

theorem s2n_flush_pass_ok : ∀ (fuel m : Nat) (c : Conn) (e : Env) (m' : Nat) (c' : Conn)
    (e' : Env) (tr : List Ev), s2n_flush_pass fuel m c e = .ok m' c' e' tr →
    m' = 0 ∧ c'.out = [] ∧ c'.reader_alert_out ≠ 2 ∧ c'.writer_alert_out ≠ 2 := by
  intro fuel
  induction fuel with
  | zero =>
    intro m c e m' c' e' tr h
    exact absurd h (by simp [s2n_flush_pass])
  | succ fuel ih =>
    intro m c e m' c' e' tr h
    rw [s2n_flush_pass] at h
    cases hdr : drainOut c e <;> rw [hdr] at h <;> dsimp only at h
    case failedWouldBlock c1 e1 tr1 => exact absurd h (by simp)
    case failedErr c1 e1 tr1 => exact absurd h (by simp)
    case diverged c1 tr1 => exact absurd h (by simp)
    case drained c1 e1 tr1 =>
      by_cases hcg : c1.closing = true
      · cases hwp : e1.wipeOk e1.wpi with
        | false =>
          rw [flushClosingStep_wipeFail m c1 e1 tr1 hcg hwp] at h
          exact absurd h (by simp)
        | true =>
          rw [flushClosingStep_wipeOk m c1 e1 tr1 hcg hwp] at h
          dsimp only at h
          by_cases hra : c1.reader_alert_out = 2
          · rw [if_pos hra] at h
            cases hrw : e1.recw e1.rwi with
            | false =>
              rw [hrw] at h
              rw [if_pos rfl] at h
              exact absurd h (by simp)
            | true =>
              rw [hrw] at h
              rw [if_neg (by simp)] at h
              obtain ⟨tr0, hrec, _⟩ := FlushRes.withTrace_ok _ _ _ _ _ _ h
              exact ih m _ _ _ _ _ _ hrec
          · rw [if_neg hra] at h
            by_cases hwa : c1.writer_alert_out = 2
            · rw [if_pos hwa] at h
              cases hrw : e1.recw e1.rwi with
              | false =>
                rw [hrw] at h
                rw [if_pos rfl] at h
                exact absurd h (by simp)
              | true =>
                rw [hrw] at h
                rw [if_neg (by simp)] at h
                obtain ⟨tr0, hrec, _⟩ := FlushRes.withTrace_ok _ _ _ _ _ _ h
                exact ih m _ _ _ _ _ _ hrec
            · rw [if_neg hwa] at h
              injection h with h1 h2 h3 h4
              subst h2
              exact ⟨h1.symm, rfl, hra, hwa⟩
      · rw [flushClosingStep_not m c1 e1 tr1 (by simpa using hcg)] at h
        dsimp only at h
        by_cases hra : c1.reader_alert_out = 2
        · rw [if_pos hra] at h
          cases hrw : e1.recw e1.rwi with
          | false =>
            rw [hrw] at h
            rw [if_pos rfl] at h
            exact absurd h (by simp)
          | true =>
            rw [hrw] at h
            rw [if_neg (by simp)] at h
            obtain ⟨tr0, hrec, _⟩ := FlushRes.withTrace_ok _ _ _ _ _ _ h
            exact ih m _ _ _ _ _ _ hrec
        · rw [if_neg hra] at h
          by_cases hwa : c1.writer_alert_out = 2
          · rw [if_pos hwa] at h
            cases hrw : e1.recw e1.rwi with
            | false =>
              rw [hrw] at h
              rw [if_pos rfl] at h
              exact absurd h (by simp)
            | true =>
              rw [hrw] at h
              rw [if_neg (by simp)] at h
              obtain ⟨tr0, hrec, _⟩ := FlushRes.withTrace_ok _ _ _ _ _ _ h
              exact ih m _ _ _ _ _ _ hrec
          · rw [if_neg hwa] at h
            injection h with h1 h2 h3 h4
            subst h2
            exact ⟨h1.symm, rfl, hra, hwa⟩

theorem alertRecordBytes_any (b : OutByte) (hb : isAlertByte b = true) :
    (alertRecordBytes b).any isAlertByte = true := by
  simp [alertRecordBytes, hb]

theorem s2n_flush_pass_abc : ∀ (fuel m : Nat) (c : Conn) (e : Env),
    (c.closing = true → c.out.any isAlertByte = true) →
    alertBeforeClosedB ((s2n_flush_pass fuel m c e).trace) = true := by
  intro fuel
  induction fuel with
  | zero => intro m c e _; rfl
  | succ fuel ih =>
    intro m c e hinv
    unfold alertBeforeClosedB
    rw [s2n_flush_pass]
    cases hdr : drainOut c e with
    | failedWouldBlock c1 e1 tr1 =>
      obtain ⟨k, hk⟩ := drainOut_trace c e
      rw [hdr] at hk
      dsimp only [DrainRes.trace] at hk
      dsimp only [FlushRes.trace]
      rw [hk]
      exact abc_wire_map _ false
    | failedErr c1 e1 tr1 =>
      obtain ⟨k, hk⟩ := drainOut_trace c e
      rw [hdr] at hk
      dsimp only [DrainRes.trace] at hk
      dsimp only [FlushRes.trace]
      rw [hk]
      exact abc_wire_map _ false
    | diverged c1 tr1 =>
      obtain ⟨k, hk⟩ := drainOut_trace c e
      rw [hdr] at hk
      dsimp only [DrainRes.trace] at hk
      dsimp only [FlushRes.trace]
      rw [hk]
      exact abc_wire_map _ false
    | drained c1 e1 tr1 =>
      obtain ⟨hout1, htr1⟩ := drainOut_drained c e c1 e1 tr1 hdr
      obtain ⟨o, wb, hs⟩ := drainOut_shape c e
      rw [hdr] at hs
      dsimp only [DrainRes.conn] at hs
      have hclosing1 : c1.closing = c.closing := by rw [hs]
      dsimp only
      by_cases hcg : c1.closing = true
      · have hany : c.out.any isAlertByte = true := hinv (hclosing1 ▸ hcg)
        have habc2 : abcAux false (tr1 ++ [Ev.closedSet]) = true := by
          rw [htr1]
          exact abc_closed_block c.out false hany
        cases hwp : e1.wipeOk e1.wpi with
        | false =>
          rw [flushClosingStep_wipeFail m c1 e1 tr1 hcg hwp]
          dsimp only [FlushRes.trace]
          exact habc2
        | true =>
          rw [flushClosingStep_wipeOk m c1 e1 tr1 hcg hwp]
          dsimp only
          by_cases hra : c1.reader_alert_out = 2
          · rw [if_pos hra]
            cases hrw : e1.recw e1.rwi with
            | false =>
              rw [if_pos rfl]
              dsimp only [FlushRes.trace]
              exact abcAux_append_of _ _ _ habc2 rfl
            | true =>
              rw [if_neg (by simp)]
              rw [flushRes_trace_withTrace]
              refine abcAux_append_of _ _ _ (abcAux_append_of _ _ _ habc2 rfl) ?_
              exact ih m _ _ (fun _ => alertRecordBytes_any _ rfl)
          · rw [if_neg hra]
            by_cases hwa : c1.writer_alert_out = 2
            · rw [if_pos hwa]
              cases hrw : e1.recw e1.rwi with
              | false =>
                rw [if_pos rfl]
                dsimp only [FlushRes.trace]
                exact abcAux_append_of _ _ _ habc2 rfl
              | true =>
                rw [if_neg (by simp)]
                rw [flushRes_trace_withTrace]
                refine abcAux_append_of _ _ _ (abcAux_append_of _ _ _ habc2 rfl) ?_
                exact ih m _ _ (fun _ => alertRecordBytes_any _ rfl)
            · rw [if_neg hwa]
              dsimp only [FlushRes.trace]
              exact habc2
      · have habc1 : abcAux false tr1 = true := by
          rw [htr1]
          exact abc_wire_map _ false
        rw [flushClosingStep_not m c1 e1 tr1 (by simpa using hcg)]
        dsimp only
        by_cases hra : c1.reader_alert_out = 2
        · rw [if_pos hra]
          cases hrw : e1.recw e1.rwi with
          | false =>
            rw [if_pos rfl]
            dsimp only [FlushRes.trace]
            exact abcAux_append_of _ _ _ habc1 rfl
          | true =>
            rw [if_neg (by simp)]
            rw [flushRes_trace_withTrace]
            refine abcAux_append_of _ _ _ (abcAux_append_of _ _ _ habc1 rfl) ?_
            exact ih m _ _ (fun _ => alertRecordBytes_any _ rfl)
        · rw [if_neg hra]
          by_cases hwa : c1.writer_alert_out = 2
          · rw [if_pos hwa]
            cases hrw : e1.recw e1.rwi with
            | false =>
              rw [if_pos rfl]
              dsimp only [FlushRes.trace]
              exact abcAux_append_of _ _ _ habc1 rfl
            | true =>
              rw [if_neg (by simp)]
              rw [flushRes_trace_withTrace]
              refine abcAux_append_of _ _ _ (abcAux_append_of _ _ _ habc1 rfl) ?_
              exact ih m _ _ (fun _ => alertRecordBytes_any _ rfl)
          · rw [if_neg hwa]
            dsimp only [FlushRes.trace]
            exact habc1

/-! ### Claim C3 (amended) -/

/-- C3 (amended): whenever `s2n_flush` returns successfully, `*more` is
0, the output buffer holds no unsent bytes, and neither the reader- nor
the writer-driven alert remains pending; and whenever flush begins on a
connection that is not already marked closing, each point of the
emitted event trace at which the connection gets marked closed is
strictly preceded by an alert record byte reaching the transport — for
both alert origins.  (The original claim, without the not-already-
closing proviso, is refuted by `claim_C3_counterexample`.) -/
theorem claim_C3 (c : Conn) (e : Env) :
    (∀ m' c' e' tr, s2n_flush c e = .ok m' c' e' tr →
      m' = 0 ∧ c'.out = [] ∧ c'.reader_alert_out ≠ 2 ∧ c'.writer_alert_out ≠ 2) ∧
    (c.closing = false →
      alertBeforeClosedB ((s2n_flush c e).trace) = true) :=
  ⟨fun m' c' e' tr h => s2n_flush_pass_ok 3 1 c e m' c' e' tr h,
   fun hcg => s2n_flush_pass_abc 3 1 c e (fun h => absurd h (by rw [hcg]; simp))⟩

/-- Counterexample to C3 as frozen: with the connection already marked
closing and a 2-byte writer alert pending, the flush succeeds but marks
the connection closed before the alert's bytes reach the transport. -/
theorem claim_C3_counterexample :
    cexConn.writer_alert_out = 2 ∧ cexConn.closed = false ∧
    (s2n_flush cexConn okEnv).isOk = true ∧
    alertBeforeClosedB ((s2n_flush cexConn okEnv).trace) = false := by
  decide

/-- Witness for C3 at a concrete reader-alert flush. -/
theorem claim_C3_witness :
    alertBeforeClosedB ((s2n_flush alertConn okEnv).trace) = true ∧
    (s2n_flush alertConn okEnv).conn.out = [] :=
  ⟨(claim_C3 alertConn okEnv).2 rfl,
   ((claim_C3 alertConn okEnv).1 _ _ _ _ rfl).2.1⟩

/-! ### Send loop lemmas -/

theorem hackTriggered_lt (c : Conn) (hk : Bool) (size m : Nat)
    (h : hackTriggered c hk size m = true) : 1 < min size m := by
  unfold hackTriggered at h
  simp only [Bool.and_eq_true, decide_eq_true_eq] at h
  exact h.1.2

theorem chunkSize_pos (c : Conn) (hk : Bool) (size m : Nat) (hs : size ≠ 0) (hm : m ≠ 0) :
    1 ≤ chunkSize c hk size m := by
  unfold chunkSize
  split
  · exact le_refl 1
  · exact lt_min (Nat.pos_of_ne_zero hs) (Nat.pos_of_ne_zero hm)

theorem chunkSize_le_size (c : Conn) (hk : Bool) (size m : Nat) :
    chunkSize c hk size m ≤ size := by
  unfold chunkSize
  split
  · rename_i h
    have := hackTriggered_lt c hk size m h
    omega
  · exact min_le_left _ _

theorem chunkSize_le_payload (c : Conn) (hk : Bool) (size m : Nat) :
    chunkSize c hk size m ≤ max 1 m := by
  unfold chunkSize
  split
  · exact le_max_left _ _
  · exact le_trans (min_le_right _ _) (le_max_right _ _)

theorem appRecordBytes_ne_nil (size : Nat) : appRecordBytes size ≠ [] := by
  simp [appRecordBytes]

/-! ### Claim C6 -/

/-- C6: in the per-chunk drain loop of `s2n_send`, a transport write
failing with would-block makes the call return immediately and
successfully, its value being the bytes written so far in this call
(the chunk just recorded included) and `*more` left at 1; a transport
write failing for any other reason makes the call fail fatally. -/
theorem claim_C6 (c : Conn) (e : Env) (m : Nat) (hk : Bool) (bw size : Nat)
    (hs : size ≠ 0) (hm0 : min size m ≠ 0) (hrec : e.recw e.rwi = true) :
    (e.writes e.wi = TResp.wouldBlock →
      ∃ c' e' tr, s2n_send_loop c e m hk bw size =
        .ok (bw + chunkSize c hk size m) 1 c' e' tr) ∧
    (e.writes e.wi = TResp.errOther →
      ∃ c' e' tr, s2n_send_loop c e m hk bw size =
        .err .ioErr (some 1) c' e' tr) := by
  obtain ⟨k, hks⟩ := Nat.exists_eq_succ_of_ne_zero hs
  unfold s2n_send_loop
  rw [hks] at hm0 ⊢
  rw [s2n_send_loop_aux]
  rw [if_neg (Nat.succ_ne_zero k), if_neg hm0, hrec]
  rw [if_neg (by simp)]
  dsimp only
  constructor
  · intro hw
    rw [drainOut_headWouldBlock _ { e with rwi := e.rwi + 1 } (appRecordBytes_ne_nil _) hw]
    exact ⟨_, _, _, rfl⟩
  · intro hw
    rw [drainOut_headErrOther _ { e with rwi := e.rwi + 1 } (appRecordBytes_ne_nil _) hw]
    exact ⟨_, _, _, rfl⟩

/-- Witness for C6: a would-block first write gives a partial success,
a hard write error gives a fatal result. -/
theorem claim_C6_witness :
    (∃ c' e' tr, s2n_send_loop baseConn wbEnv 1000 false 0 5 =
      .ok (0 + chunkSize baseConn false 5 1000) 1 c' e' tr) ∧
    (∃ c' e' tr, s2n_send_loop baseConn errWriteEnv 1000 false 0 5 =
      .err .ioErr (some 1) c' e' tr) :=
  ⟨(claim_C6 baseConn wbEnv 1000 false 0 5 (by decide) (by decide) rfl).1 rfl,
   (claim_C6 baseConn errWriteEnv 1000 false 0 5 (by decide) (by decide) rfl).2 rfl⟩

/-! ### Fully successful runs of the send loop -/

theorem s2n_send_loop_aux_step (fuel : Nat) (c : Conn) (e : Env) (m : Nat) (hk : Bool)
    (bw size : Nat) (hs0 : size ≠ 0) (hm0 : min size m ≠ 0)
    (hrw : e.recw e.rwi = true) (w : Nat) (hwq : e.writes e.wi = TResp.ok w)
    (hlen : (appRecordBytes (chunkSize c hk size m)).length ≤ w) :
    s2n_send_loop_aux (fuel + 1) c e m hk bw size =
      (s2n_send_loop_aux fuel
        { c with
          dyn_record_sz_bytes_out :=
            (c.dyn_record_sz_bytes_out + chunkSize c hk size m) % 2 ^ 32
          out := []
          wire_bytes_out :=
            (c.wire_bytes_out + (appRecordBytes (chunkSize c hk size m)).length) % 2 ^ 64 }
        { e with rwi := e.rwi + 1, wi := e.wi + 1 }
        m (hk || hackTriggered c hk size m) (bw + chunkSize c hk size m)
        (size - chunkSize c hk size m)).withTrace
        (Ev.recWrite .applicationData (chunkSize c hk size m) ::
          (appRecordBytes (chunkSize c hk size m)).map Ev.wire) := by
  rw [s2n_send_loop_aux]
  rw [if_neg hs0, if_neg hm0, hrw]
  rw [if_neg (by simp)]
  dsimp only
  rw [drainOut_oneShot _ { e with rwi := e.rwi + 1 } w (appRecordBytes_ne_nil _) hwq hlen]

theorem s2n_send_loop_ok : ∀ (fuel size : Nat), size ≤ fuel →
    ∀ (c : Conn) (e : Env) (m : Nat) (hk : Bool) (bw : Nat),
    1 ≤ m →
    (∀ i, e.recw i = true) →
    (∀ i, ∃ w, e.writes i = TResp.ok w ∧ 5 + m ≤ w) →
    c.dyn_record_sz_bytes_out < 2 ^ 32 →
    ∃ c' e' tr, s2n_send_loop_aux fuel c e m hk bw size = .ok (bw + size) 0 c' e' tr ∧
      c'.dyn_record_sz_bytes_out = (c.dyn_record_sz_bytes_out + size) % 2 ^ 32 ∧
      c'.curr_max_fragment_size = c.curr_max_fragment_size ∧
      c'.config = c.config := by
  intro fuel
  induction fuel with
  | zero =>
    intro size hsz c e m hk bw hm hrecw hw hB
    have hs0 : size = 0 := Nat.le_zero.mp hsz
    subst hs0
    exact ⟨c, e, [], by simp [s2n_send_loop_aux], by rw [Nat.add_zero, Nat.mod_eq_of_lt hB],
      rfl, rfl⟩
  | succ fuel ihf =>
    intro size hsz c e m hk bw hm hrecw hw hB
    by_cases hs0 : size = 0
    · subst hs0
      exact ⟨c, e, [], by simp [s2n_send_loop_aux], by rw [Nat.add_zero, Nat.mod_eq_of_lt hB],
        rfl, rfl⟩
    · have hm0 : min size m ≠ 0 :=
        Nat.ne_of_gt (lt_min (Nat.pos_of_ne_zero hs0) (Nat.lt_of_lt_of_le Nat.zero_lt_one hm))
      have hsz1 : 1 ≤ chunkSize c hk size m := chunkSize_pos c hk size m hs0 (by omega)
      have hszle : chunkSize c hk size m ≤ size := chunkSize_le_size c hk size m
      have hszm : chunkSize c hk size m ≤ m := by
        have h := chunkSize_le_payload c hk size m
        rwa [max_eq_right hm] at h
      obtain ⟨w, hwq, hwge⟩ := hw e.wi
      have hlen : (appRecordBytes (chunkSize c hk size m)).length ≤ w := by
        simp only [appRecordBytes, List.length_replicate]
        omega
      rw [s2n_send_loop_aux_step fuel c e m hk bw size hs0 hm0 (hrecw e.rwi) w hwq hlen]
      obtain ⟨c', e', tr', hloop, hdyn, hcurr, hcfg⟩ :=
        ihf (size - chunkSize c hk size m) (by omega)
          { c with
            dyn_record_sz_bytes_out :=
              (c.dyn_record_sz_bytes_out + chunkSize c hk size m) % 2 ^ 32
            out := []
            wire_bytes_out :=
              (c.wire_bytes_out + (appRecordBytes (chunkSize c hk size m)).length) % 2 ^ 64 }
          { e with rwi := e.rwi + 1, wi := e.wi + 1 }
          m (hk || hackTriggered c hk size m) (bw + chunkSize c hk size m) hm
          (fun i => hrecw i) (fun i => hw i)
          (by exact Nat.mod_lt _ (by norm_num))
      rw [show bw + chunkSize c hk size m + (size - chunkSize c hk size m) = bw + size
        from by omega] at hloop
      rw [hloop]
      refine ⟨c', e', _, rfl, ?_, hcurr, hcfg⟩
      dsimp only at hdyn
      have hpow : (2 : Nat) ^ 32 = 4294967296 := by norm_num
      rw [hpow] at hdyn ⊢
      omega

/-! ### Flush and adjustment no-op forms used by the send path -/

theorem s2n_flush_noop (c : Conn) (e : Env) (hout : c.out = [])
    (hcg : c.closing = false) (hra : c.reader_alert_out ≠ 2)
    (hwa : c.writer_alert_out ≠ 2) :
    s2n_flush c e = .ok 0 c e [] := by
  have h3 : ({ c with out := [] } : Conn) = c := by rw [← hout]
  unfold s2n_flush
  rw [s2n_flush_pass]
  rw [drainOut_empty c e hout]
  dsimp only
  rw [flushClosingStep_not 1 c e [] hcg]
  dsimp only
  rw [if_neg hra, if_neg hwa, h3]

theorem adjust_min_stay (c : Conn) (e : Env)
    (hne : c.curr_max_fragment_size ≠ c.config.max_fragment_size)
    (hlt : c.dyn_record_sz_bytes_out < c.config.bytes_out_threshold) :
    adjust_record_size_if_needed c e = .ok c e [] := by
  have hdec : adjustDecision c e = ⟨c.curr_max_fragment_size, c, e, []⟩ := by
    unfold adjustDecision
    rw [if_neg hne, if_neg (not_le.mpr hlt)]
  unfold adjust_record_size_if_needed
  rw [hdec]
  unfold installNewFragmentSize
  rw [if_pos rfl]

theorem adjust_min_grow (c : Conn) (e : Env)
    (hne : c.curr_max_fragment_size ≠ c.config.max_fragment_size)
    (hge : c.config.bytes_out_threshold ≤ c.dyn_record_sz_bytes_out)
    (hres : e.resize e.ri = RResp.ok) :
    adjust_record_size_if_needed c e =
      .ok { c with curr_max_fragment_size := c.config.max_fragment_size }
        { e with ei := e.ei + 1, ri := e.ri + 1 } [Ev.timerReset (e.elapsed e.ei)] := by
  have hdec : adjustDecision c e =
      ⟨c.config.max_fragment_size, c, { e with ei := e.ei + 1 },
       [Ev.timerReset (e.elapsed e.ei)]⟩ := by
    unfold adjustDecision
    rw [if_neg hne, if_pos hge]
  unfold adjust_record_size_if_needed
  rw [hdec]
  unfold installNewFragmentSize
  rw [if_neg (fun h => hne h.symm)]
  dsimp only
  rw [hres]

/-! ### Claim C4 -/

/-- C4: with the size at MIN, the adjustment runs at the start of each
`s2n_send` call, before that call's bytes are counted: a fully
successful send leaves the size at MIN whenever the cumulative counter
at entry is below the threshold — including the call that brings the
cumulative total exactly to the threshold — and the first call entered
with the counter at or above the threshold switches the size to
`config.max_fragment_size`; the counter itself advances by the bytes of
the call. -/
theorem claim_C4 (c : Conn) (e : Env) (size m : Nat)
    (hclosed : c.closed = false) (hcg : c.closing = false) (hout : c.out = [])
    (hra : c.reader_alert_out ≠ 2) (hwa : c.writer_alert_out ≠ 2)
    (hcurr : c.curr_max_fragment_size = S2N_DEFAULT_FRAGMENT_LENGTH)
    (hneq : c.config.max_fragment_size ≠ S2N_DEFAULT_FRAGMENT_LENGTH)
    (hB : c.dyn_record_sz_bytes_out < 2 ^ 32)
    (hmp : e.maxPayload = (m : Int)) (hm : 1 ≤ m)
    (hrecw : ∀ i, e.recw i = true)
    (hw : ∀ i, ∃ w, e.writes i = TResp.ok w ∧ 5 + m ≤ w)
    (hres : ∀ i, e.resize i = RResp.ok) :
    ∃ c' e' tr, s2n_send c size e = .ok size 0 c' e' tr ∧
      c'.curr_max_fragment_size =
        (if c.config.bytes_out_threshold ≤ c.dyn_record_sz_bytes_out
         then c.config.max_fragment_size else S2N_DEFAULT_FRAGMENT_LENGTH) ∧
      c'.dyn_record_sz_bytes_out = (c.dyn_record_sz_bytes_out + size) % 2 ^ 32 := by
  have hne : c.curr_max_fragment_size ≠ c.config.max_fragment_size := by
    rw [hcurr]
    exact fun h => hneq h.symm
  have hnot : ¬(e.maxPayload < 0) := by
    rw [hmp]
    simp
  have htoNat : e.maxPayload.toNat = m := by
    rw [hmp]
    simp
  unfold s2n_send
  rw [hclosed]
  rw [if_neg (by simp)]
  rw [s2n_flush_noop c e hout hcg hra hwa]
  dsimp only
  by_cases hth : c.config.bytes_out_threshold ≤ c.dyn_record_sz_bytes_out
  · rw [adjust_min_grow c e hne hth (hres e.ri)]
    dsimp only
    rw [if_neg hnot, htoNat]
    unfold s2n_send_loop
    obtain ⟨c', e', tr', hloop, hdyn, hcurr', hcfg'⟩ :=
      s2n_send_loop_ok size size le_rfl
        { c with curr_max_fragment_size := c.config.max_fragment_size }
        { e with ei := e.ei + 1, ri := e.ri + 1 } m false 0 hm hrecw hw hB
    rw [Nat.zero_add] at hloop
    rw [hloop]
    refine ⟨c', _, _, rfl, ?_, ?_⟩
    · rw [if_pos hth]
      exact hcurr'
    · exact hdyn
  · rw [adjust_min_stay c e hne (not_le.mp hth)]
    dsimp only
    rw [if_neg hnot, htoNat]
    unfold s2n_send_loop
    obtain ⟨c', e', tr', hloop, hdyn, hcurr', hcfg'⟩ :=
      s2n_send_loop_ok size size le_rfl c e m false 0 hm hrecw hw hB
    rw [Nat.zero_add] at hloop
    rw [hloop]
    refine ⟨c', _, _, rfl, ?_, ?_⟩
    · rw [if_neg hth, ← hcurr]
      exact hcurr'
    · exact hdyn

/-- Witness for C4: counter at 150 with threshold 100 grows to MAX
while adding the 7 sent bytes; counter at 100 with threshold 100 also
grows (boundary); counter at 99 stays at MIN. -/
theorem claim_C4_witness :
    (∃ c' e' tr, s2n_send { baseConn with dyn_record_sz_bytes_out := 100 } 7 okEnv =
       .ok 7 0 c' e' tr ∧
      c'.curr_max_fragment_size =
        (if ({ baseConn with dyn_record_sz_bytes_out := 100 } : Conn).config.bytes_out_threshold ≤
            ({ baseConn with dyn_record_sz_bytes_out := 100 } : Conn).dyn_record_sz_bytes_out
         then ({ baseConn with dyn_record_sz_bytes_out := 100 } : Conn).config.max_fragment_size
         else S2N_DEFAULT_FRAGMENT_LENGTH) ∧
      c'.dyn_record_sz_bytes_out = (100 + 7) % 2 ^ 32) ∧
    (∃ c' e' tr, s2n_send { baseConn with dyn_record_sz_bytes_out := 99 } 7 okEnv =
       .ok 7 0 c' e' tr ∧
      c'.curr_max_fragment_size =
        (if ({ baseConn with dyn_record_sz_bytes_out := 99 } : Conn).config.bytes_out_threshold ≤
            ({ baseConn with dyn_record_sz_bytes_out := 99 } : Conn).dyn_record_sz_bytes_out
         then ({ baseConn with dyn_record_sz_bytes_out := 99 } : Conn).config.max_fragment_size
         else S2N_DEFAULT_FRAGMENT_LENGTH) ∧
      c'.dyn_record_sz_bytes_out = (99 + 7) % 2 ^ 32) :=
  ⟨claim_C4 { baseConn with dyn_record_sz_bytes_out := 100 } okEnv 7 1000 rfl rfl rfl
      (by decide) (by decide) rfl (by decide) (by decide) rfl (by decide)
      (fun _ => rfl) (fun _ => ⟨1000000000, rfl, by norm_num⟩) (fun _ => rfl),
   claim_C4 { baseConn with dyn_record_sz_bytes_out := 99 } okEnv 7 1000 rfl rfl rfl
      (by decide) (by decide) rfl (by decide) (by decide) rfl (by decide)
      (fun _ => rfl) (fun _ => ⟨1000000000, rfl, by norm_num⟩) (fun _ => rfl)⟩

/-! ### Chunk-size refinement lemmas -/

theorem recAppSizes_append : ∀ (l1 l2 : List Ev),
    recAppSizes (l1 ++ l2) = recAppSizes l1 ++ recAppSizes l2 := by
  intro l1
  induction l1 with
  | nil => intro l2; rfl
  | cons hd t iht =>
    intro l2
    cases hd with
    | wire b => simp [recAppSizes, iht]
    | closedSet => simp [recAppSizes, iht]
    | timerReset n => simp [recAppSizes, iht]
    | recWrite ty n =>
      cases ty with
      | applicationData => simp [recAppSizes, iht]
      | alertRec => simp [recAppSizes, iht]

theorem recAppSizes_wire_map : ∀ (l : List OutByte),
    recAppSizes (l.map Ev.wire) = [] := by
  intro l
  induction l with
  | nil => rfl
  | cons hd t iht => simp [recAppSizes, iht]

theorem hackTriggered_of_used (c : Conn) (size m : Nat) :
    hackTriggered c true size m = false := by
  simp [hackTriggered]

theorem hackTriggered_of_small (c : Conn) (hk : Bool) (size m : Nat)
    (h : min size m ≤ 1) : hackTriggered c hk size m = false := by
  unfold hackTriggered
  have hdec : decide (1 < min size m) = false := decide_eq_false (by omega)
  rw [hdec]
  simp

theorem s2n_send_loop_sizes_greedy : ∀ (fuel size : Nat) (c : Conn) (e : Env)
    (m : Nat) (hk : Bool) (bw : Nat),
    1 ≤ m →
    (∀ i, e.recw i = true) →
    (∀ i, ∃ w, e.writes i = TResp.ok w ∧ 5 + m ≤ w) →
    (hk = true ∨ min size m ≤ 1) →
    recAppSizes ((s2n_send_loop_aux fuel c e m hk bw size).trace) =
      greedyChunksAux m fuel size := by
  intro fuel
  induction fuel with
  | zero =>
    intro size c e m hk bw hm hrecw hw hd
    cases size with
    | zero => rfl
    | succ k => rfl
  | succ fuel ihf =>
    intro size c e m hk bw hm hrecw hw hd
    cases size with
    | zero => rfl
    | succ k =>
      have hs0 : (k + 1 : Nat) ≠ 0 := Nat.succ_ne_zero k
      have hm0 : min (k + 1) m ≠ 0 :=
        Nat.ne_of_gt (lt_min (Nat.succ_pos k) (by omega))
      have hnt : hackTriggered c hk (k + 1) m = false := by
        rcases hd with h | h
        · rw [h]
          exact hackTriggered_of_used c (k + 1) m
        · exact hackTriggered_of_small c hk (k + 1) m h
      have hsz : chunkSize c hk (k + 1) m = min (k + 1) m := by
        unfold chunkSize
        rw [hnt]
        rfl
      obtain ⟨w, hwq, hwge⟩ := hw e.wi
      have hlen : (appRecordBytes (chunkSize c hk (k + 1) m)).length ≤ w := by
        simp only [appRecordBytes, List.length_replicate]
        have : chunkSize c hk (k + 1) m ≤ m := by
          rw [hsz]
          exact min_le_right _ _
        omega
      rw [s2n_send_loop_aux_step fuel c e m hk bw (k + 1) hs0 hm0 (hrecw e.rwi) w hwq hlen]
      rw [sendRes_trace_withTrace]
      rw [show (Ev.recWrite .applicationData (chunkSize c hk (k + 1) m) ::
          (appRecordBytes (chunkSize c hk (k + 1) m)).map Ev.wire) ++
          (s2n_send_loop_aux fuel _ _ m (hk || hackTriggered c hk (k + 1) m)
            (bw + chunkSize c hk (k + 1) m) (k + 1 - chunkSize c hk (k + 1) m)).trace =
        Ev.recWrite .applicationData (chunkSize c hk (k + 1) m) ::
          ((appRecordBytes (chunkSize c hk (k + 1) m)).map Ev.wire ++
          (s2n_send_loop_aux fuel _ _ m (hk || hackTriggered c hk (k + 1) m)
            (bw + chunkSize c hk (k + 1) m) (k + 1 - chunkSize c hk (k + 1) m)).trace)
        from rfl]
      rw [recAppSizes]
      rw [recAppSizes_append, recAppSizes_wire_map]
      rw [ihf (k + 1 - chunkSize c hk (k + 1) m)
        { c with
          dyn_record_sz_bytes_out :=
            (c.dyn_record_sz_bytes_out + chunkSize c hk (k + 1) m) % 2 ^ 32
          out := []
          wire_bytes_out :=
            (c.wire_bytes_out + (appRecordBytes (chunkSize c hk (k + 1) m)).length) % 2 ^ 64 }
        { e with rwi := e.rwi + 1, wi := e.wi + 1 }
        m (hk || hackTriggered c hk (k + 1) m)
        (bw + chunkSize c hk (k + 1) m) hm (fun i => hrecw i) (fun i => hw i) ?_]
      · rw [greedyChunksAux, hsz]
        simp
      · rcases hd with h | h
        · exact Or.inl (by rw [h]; rfl)
        · refine Or.inr (le_trans (min_le_min (Nat.sub_le _ _) le_rfl) h)

/-! ### Claim C5 -/

/-- C5: in `s2n_send`, when the negotiated protocol version is below
TLS 1.1 and the active cipher is CBC-mode, the sequence of
application-data record payload sizes of a fully successful call is: if
the natural size of the first chunk exceeds 1 byte, exactly one forced
1-byte chunk followed by the ordinary greedy `min(remaining, max
payload)` chunks of the remainder; otherwise exactly the ordinary
greedy chunks — so the forced split happens at most once per call and
every other chunk uses ordinary sizing. -/
theorem claim_C5 (c : Conn) (e : Env) (size m : Nat)
    (hclosed : c.closed = false) (hcg : c.closing = false) (hout : c.out = [])
    (hra : c.reader_alert_out ≠ 2) (hwa : c.writer_alert_out ≠ 2)
    (hv : c.actual_protocol_version < S2N_TLS11)
    (hct : c.cipher_type = CipherType.cbc)
    (hne : c.curr_max_fragment_size ≠ c.config.max_fragment_size)
    (hlt : c.dyn_record_sz_bytes_out < c.config.bytes_out_threshold)
    (hmp : e.maxPayload = (m : Int)) (hm : 1 ≤ m)
    (hrecw : ∀ i, e.recw i = true)
    (hw : ∀ i, ∃ w, e.writes i = TResp.ok w ∧ 5 + m ≤ w) :
    recAppSizes ((s2n_send c size e).trace) =
      (if 1 < min size m then 1 :: greedyChunks m (size - 1)
       else greedyChunks m size) := by
  have hnot : ¬(e.maxPayload < 0) := by
    rw [hmp]
    simp
  have htoNat : e.maxPayload.toNat = m := by
    rw [hmp]
    simp
  unfold s2n_send
  rw [hclosed]
  rw [if_neg (by simp)]
  rw [s2n_flush_noop c e hout hcg hra hwa]
  dsimp only
  rw [adjust_min_stay c e hne hlt]
  dsimp only
  rw [if_neg hnot, htoNat]
  rw [sendRes_trace_withTrace]
  rw [show (([] : List Ev) ++ []) = ([] : List Ev) from rfl, List.nil_append]
  unfold s2n_send_loop
  by_cases h1 : 1 < min size m
  · rw [if_pos h1]
    obtain ⟨k, rfl⟩ : ∃ k, size = k + 1 := ⟨size - 1, by omega⟩
    have htr : hackTriggered c false (k + 1) m = true := by
      unfold hackTriggered
      rw [hct]
      simp [hv, h1]
    have hsz : chunkSize c false (k + 1) m = 1 := by
      unfold chunkSize
      rw [htr]
      rfl
    obtain ⟨w, hwq, hwge⟩ := hw e.wi
    have hlen : (appRecordBytes (chunkSize c false (k + 1) m)).length ≤ w := by
      rw [hsz]
      simp only [appRecordBytes, List.length_replicate]
      omega
    rw [s2n_send_loop_aux_step k c e m false 0 (k + 1) (Nat.succ_ne_zero k)
      (Nat.ne_of_gt (lt_min (Nat.succ_pos k) (by omega))) (hrecw e.rwi) w hwq hlen]
    rw [sendRes_trace_withTrace]
    rw [show (Ev.recWrite .applicationData (chunkSize c false (k + 1) m) ::
        (appRecordBytes (chunkSize c false (k + 1) m)).map Ev.wire) ++
        (s2n_send_loop_aux k
          { c with
            dyn_record_sz_bytes_out :=
              (c.dyn_record_sz_bytes_out + chunkSize c false (k + 1) m) % 2 ^ 32
            out := []
            wire_bytes_out :=
              (c.wire_bytes_out + (appRecordBytes (chunkSize c false (k + 1) m)).length) % 2 ^ 64 }
          { e with rwi := e.rwi + 1, wi := e.wi + 1 }
          m (false || hackTriggered c false (k + 1) m) (0 + chunkSize c false (k + 1) m)
          (k + 1 - chunkSize c false (k + 1) m)).trace =
      Ev.recWrite .applicationData (chunkSize c false (k + 1) m) ::
        ((appRecordBytes (chunkSize c false (k + 1) m)).map Ev.wire ++
        (s2n_send_loop_aux k
          { c with
            dyn_record_sz_bytes_out :=
              (c.dyn_record_sz_bytes_out + chunkSize c false (k + 1) m) % 2 ^ 32
            out := []
            wire_bytes_out :=
              (c.wire_bytes_out + (appRecordBytes (chunkSize c false (k + 1) m)).length) % 2 ^ 64 }
          { e with rwi := e.rwi + 1, wi := e.wi + 1 }
          m (false || hackTriggered c false (k + 1) m) (0 + chunkSize c false (k + 1) m)
          (k + 1 - chunkSize c false (k + 1) m)).trace)
      from rfl]
    rw [recAppSizes]
    rw [recAppSizes_append, recAppSizes_wire_map]
    rw [s2n_send_loop_sizes_greedy k (k + 1 - chunkSize c false (k + 1) m)
      { c with
        dyn_record_sz_bytes_out :=
          (c.dyn_record_sz_bytes_out + chunkSize c false (k + 1) m) % 2 ^ 32
        out := []
        wire_bytes_out :=
          (c.wire_bytes_out + (appRecordBytes (chunkSize c false (k + 1) m)).length) % 2 ^ 64 }
      { e with rwi := e.rwi + 1, wi := e.wi + 1 }
      m (false || hackTriggered c false (k + 1) m) (0 + chunkSize c false (k + 1) m)
      hm (fun i => hrecw i) (fun i => hw i) (Or.inl (by rw [htr]; rfl))]
    rw [hsz]
    rfl
  · rw [if_neg h1]
    rw [s2n_send_loop_sizes_greedy size size c e m false 0 hm hrecw hw (Or.inr (by omega))]
    rfl

/-- Witness for C5: a 5-byte CBC-mode TLS 1.0 send with payload bound 3
chunks as 1, 3, 1. -/
theorem claim_C5_witness :
    recAppSizes ((s2n_send cbcConn 5 smallEnv).trace) =
      (if 1 < min 5 3 then 1 :: greedyChunks 3 4 else greedyChunks 3 5) :=
  claim_C5 cbcConn smallEnv 5 3 rfl rfl rfl (by decide) (by decide) (by decide) rfl
    (by decide) (by decide) rfl (by decide) (fun _ => rfl)
    (fun _ => ⟨1000000000, rfl, by norm_num⟩)

/-! ### Frame lemmas: which fields each operation can change -/

theorem drainOut_frame (c : Conn) (e : Env) :
    (drainOut c e).conn.curr_max_fragment_size = c.curr_max_fragment_size ∧
    (drainOut c e).conn.config = c.config := by
  obtain ⟨o, wb, hs⟩ := drainOut_shape c e
  rw [hs]
  exact ⟨rfl, rfl⟩

theorem s2n_flush_pass_frame : ∀ (fuel m : Nat) (c : Conn) (e : Env),
    (s2n_flush_pass fuel m c e).conn.curr_max_fragment_size = c.curr_max_fragment_size ∧
    (s2n_flush_pass fuel m c e).conn.config = c.config := by
  intro fuel
  induction fuel with
  | zero => intro m c e; exact ⟨rfl, rfl⟩
  | succ fuel ih =>
    intro m c e
    rw [s2n_flush_pass]
    have hfr := drainOut_frame c e
    cases hdr : drainOut c e with
    | diverged c1 tr1 =>
      rw [hdr] at hfr
      exact ⟨hfr.1, hfr.2⟩
    | failedWouldBlock c1 e1 tr1 =>
      rw [hdr] at hfr
      exact ⟨hfr.1, hfr.2⟩
    | failedErr c1 e1 tr1 =>
      rw [hdr] at hfr
      exact ⟨hfr.1, hfr.2⟩
    | drained c1 e1 tr1 =>
      rw [hdr] at hfr
      dsimp only [DrainRes.conn] at hfr
      dsimp only
      by_cases hcg : c1.closing = true
      · cases hwp : e1.wipeOk e1.wpi with
        | false =>
          rw [flushClosingStep_wipeFail m c1 e1 tr1 hcg hwp]
          exact ⟨hfr.1, hfr.2⟩
        | true =>
          rw [flushClosingStep_wipeOk m c1 e1 tr1 hcg hwp]
          dsimp only
          by_cases hra : c1.reader_alert_out = 2
          · rw [if_pos hra]
            cases hrw : e1.recw e1.rwi with
            | false =>
              rw [if_pos rfl]
              exact ⟨hfr.1, hfr.2⟩
            | true =>
              rw [if_neg (by simp)]
              rw [flushRes_conn_withTrace]
              refine ⟨(ih m _ _).1.trans ?_, (ih m _ _).2.trans ?_⟩
              · exact hfr.1
              · exact hfr.2
          · rw [if_neg hra]
            by_cases hwa : c1.writer_alert_out = 2
            · rw [if_pos hwa]
              cases hrw : e1.recw e1.rwi with
              | false =>
                rw [if_pos rfl]
                exact ⟨hfr.1, hfr.2⟩
              | true =>
                rw [if_neg (by simp)]
                rw [flushRes_conn_withTrace]
                refine ⟨(ih m _ _).1.trans ?_, (ih m _ _).2.trans ?_⟩
                · exact hfr.1
                · exact hfr.2
            · rw [if_neg hwa]
              exact ⟨hfr.1, hfr.2⟩
      · rw [flushClosingStep_not m c1 e1 tr1 (by simpa using hcg)]
        dsimp only
        by_cases hra : c1.reader_alert_out = 2
        · rw [if_pos hra]
          cases hrw : e1.recw e1.rwi with
          | false =>
            rw [if_pos rfl]
            exact ⟨hfr.1, hfr.2⟩
          | true =>
            rw [if_neg (by simp)]
            rw [flushRes_conn_withTrace]
            refine ⟨(ih m _ _).1.trans ?_, (ih m _ _).2.trans ?_⟩
            · exact hfr.1
            · exact hfr.2
        · rw [if_neg hra]
          by_cases hwa : c1.writer_alert_out = 2
          · rw [if_pos hwa]
            cases hrw : e1.recw e1.rwi with
            | false =>
              rw [if_pos rfl]
              exact ⟨hfr.1, hfr.2⟩
            | true =>
              rw [if_neg (by simp)]
              rw [flushRes_conn_withTrace]
              refine ⟨(ih m _ _).1.trans ?_, (ih m _ _).2.trans ?_⟩
              · exact hfr.1
              · exact hfr.2
          · rw [if_neg hwa]
            exact ⟨hfr.1, hfr.2⟩

theorem s2n_send_loop_aux_frame : ∀ (fuel : Nat) (c : Conn) (e : Env) (m : Nat)
    (hk : Bool) (bw size : Nat),
    (s2n_send_loop_aux fuel c e m hk bw size).conn.curr_max_fragment_size
      = c.curr_max_fragment_size ∧
    (s2n_send_loop_aux fuel c e m hk bw size).conn.config = c.config := by
  intro fuel
  induction fuel with
  | zero =>
    intro c e m hk bw size
    rw [s2n_send_loop_aux]
    split
    · exact ⟨rfl, rfl⟩
    · exact ⟨rfl, rfl⟩
  | succ fuel ihf =>
    intro c e m hk bw size
    rw [s2n_send_loop_aux]
    by_cases hs0 : size = 0
    · rw [if_pos hs0]
      exact ⟨rfl, rfl⟩
    · rw [if_neg hs0]
      by_cases hm0 : min size m = 0
      · rw [if_pos hm0]
        exact ⟨rfl, rfl⟩
      · rw [if_neg hm0]
        dsimp only
        cases hrw : e.recw e.rwi with
        | false =>
          rw [if_pos rfl]
          exact ⟨rfl, rfl⟩
        | true =>
          rw [if_neg (by simp)]
          have hfr := drainOut_frame
            { c with
              out := appRecordBytes (chunkSize c hk size m)
              dyn_record_sz_bytes_out :=
                (c.dyn_record_sz_bytes_out + chunkSize c hk size m) % 2 ^ 32 }
            { e with rwi := e.rwi + 1 }
          cases hdr : drainOut
              { c with
                out := appRecordBytes (chunkSize c hk size m)
                dyn_record_sz_bytes_out :=
                  (c.dyn_record_sz_bytes_out + chunkSize c hk size m) % 2 ^ 32 }
              { e with rwi := e.rwi + 1 } with
          | diverged cx tr =>
            rw [hdr] at hfr
            exact ⟨hfr.1, hfr.2⟩
          | failedWouldBlock c4 e2 tr =>
            rw [hdr] at hfr
            exact ⟨hfr.1, hfr.2⟩
          | failedErr c4 e2 tr =>
            rw [hdr] at hfr
            exact ⟨hfr.1, hfr.2⟩
          | drained c4 e2 tr =>
            rw [hdr] at hfr
            dsimp only [DrainRes.conn] at hfr
            rw [sendRes_conn_withTrace]
            exact ⟨(ihf c4 e2 m _ _ _).1.trans hfr.1, (ihf c4 e2 m _ _ _).2.trans hfr.2⟩

theorem adjust_frame (c : Conn) (e : Env) :
    (adjust_record_size_if_needed c e).conn.config = c.config ∧
    ((adjust_record_size_if_needed c e).conn.curr_max_fragment_size
        = c.curr_max_fragment_size ∨
     (adjust_record_size_if_needed c e).conn.curr_max_fragment_size
        = S2N_DEFAULT_FRAGMENT_LENGTH ∨
     (adjust_record_size_if_needed c e).conn.curr_max_fragment_size
        = c.config.max_fragment_size) := by
  have hconn := adjustDecision_conn c e
  have hns := adjustDecision_newSize c e
  unfold adjust_record_size_if_needed installNewFragmentSize
  split
  · exact ⟨hconn.2, Or.inl hconn.1⟩
  · split
    · exact ⟨hconn.2, Or.inl hconn.1⟩
    · exact ⟨hconn.2, Or.inl hconn.1⟩
    · refine ⟨hconn.2, ?_⟩
      rcases hns with h | h | h
      · exact Or.inl (by dsimp only [AdjRes.conn]; rw [h])
      · exact Or.inr (Or.inl (by dsimp only [AdjRes.conn]; rw [h]))
      · exact Or.inr (Or.inr (by dsimp only [AdjRes.conn]; rw [h]))

theorem s2n_send_frame (c : Conn) (n : Nat) (e : Env) :
    (s2n_send c n e).conn.config = c.config ∧
    ((s2n_send c n e).conn.curr_max_fragment_size = c.curr_max_fragment_size ∨
     (s2n_send c n e).conn.curr_max_fragment_size = S2N_DEFAULT_FRAGMENT_LENGTH ∨
     (s2n_send c n e).conn.curr_max_fragment_size = c.config.max_fragment_size) := by
  unfold s2n_send
  split
  · exact ⟨rfl, Or.inl rfl⟩
  · have hfl := s2n_flush_pass_frame 3 1 c e
    cases hf : s2n_flush c e with
    | diverged cx tr =>
      rw [show s2n_flush c e = s2n_flush_pass 3 1 c e from rfl] at hf
      rw [hf] at hfl
      exact ⟨hfl.2, Or.inl hfl.1⟩
    | err ec m1 c1 e1 tr =>
      rw [show s2n_flush c e = s2n_flush_pass 3 1 c e from rfl] at hf
      rw [hf] at hfl
      exact ⟨hfl.2, Or.inl hfl.1⟩
    | ok m1 c1 e1 tr1 =>
      rw [show s2n_flush c e = s2n_flush_pass 3 1 c e from rfl] at hf
      rw [hf] at hfl
      dsimp only [FlushRes.conn] at hfl
      dsimp only
      have haf := adjust_frame c1 e1
      cases ha : adjust_record_size_if_needed c1 e1 with
      | err ec c2 e2 tr2 =>
        rw [ha] at haf
        dsimp only [AdjRes.conn] at haf
        refine ⟨haf.1.trans hfl.2, ?_⟩
        rcases haf.2 with h | h | h
        · exact Or.inl (h.trans hfl.1)
        · exact Or.inr (Or.inl h)
        · exact Or.inr (Or.inr (h.trans (by rw [hfl.2])))
      | ok c2 e2 tr2 =>
        rw [ha] at haf
        dsimp only [AdjRes.conn] at haf
        dsimp only
        have hcombined : c2.config = c.config ∧
            (c2.curr_max_fragment_size = c.curr_max_fragment_size ∨
             c2.curr_max_fragment_size = S2N_DEFAULT_FRAGMENT_LENGTH ∨
             c2.curr_max_fragment_size = c.config.max_fragment_size) := by
          refine ⟨haf.1.trans hfl.2, ?_⟩
          rcases haf.2 with h | h | h
          · exact Or.inl (h.trans hfl.1)
          · exact Or.inr (Or.inl h)
          · exact Or.inr (Or.inr (h.trans (by rw [hfl.2])))
        split
        · exact hcombined
        · rw [sendRes_conn_withTrace]
          have hlf := s2n_send_loop_aux_frame n c2 e2 e2.maxPayload.toNat false 0 n
          refine ⟨hlf.2.trans hcombined.1, ?_⟩
          rcases hcombined.2 with h | h | h
          · exact Or.inl (hlf.1.trans h)
          · exact Or.inr (Or.inl (hlf.1.trans h))
          · exact Or.inr (Or.inr (hlf.1.trans h))

/-! ### Claim C1 -/

/-- C1: over every sequence of send and adjust operations on a
connection whose configuration is fixed, starting from the default
fragment length, `curr_max_fragment_size` is always exactly
`S2N_DEFAULT_FRAGMENT_LENGTH` or `config.max_fragment_size`, never any
intermediate value; the configuration itself never changes. -/
theorem claim_C1 (ops : List Op) (c : Conn)
    (h : c.curr_max_fragment_size = S2N_DEFAULT_FRAGMENT_LENGTH) :
    (applyOps c ops).config = c.config ∧
    ((applyOps c ops).curr_max_fragment_size = S2N_DEFAULT_FRAGMENT_LENGTH ∨
     (applyOps c ops).curr_max_fragment_size = c.config.max_fragment_size) := by
  suffices H : ∀ (ops : List Op) (c : Conn),
      (c.curr_max_fragment_size = S2N_DEFAULT_FRAGMENT_LENGTH ∨
       c.curr_max_fragment_size = c.config.max_fragment_size) →
      (applyOps c ops).config = c.config ∧
      ((applyOps c ops).curr_max_fragment_size = S2N_DEFAULT_FRAGMENT_LENGTH ∨
       (applyOps c ops).curr_max_fragment_size = c.config.max_fragment_size) by
    exact H ops c (Or.inl h)
  intro ops
  induction ops with
  | nil => intro c hc; exact ⟨rfl, hc⟩
  | cons op t iht =>
    intro c hc
    have hstep : (applyOp c op).config = c.config ∧
        ((applyOp c op).curr_max_fragment_size = c.curr_max_fragment_size ∨
         (applyOp c op).curr_max_fragment_size = S2N_DEFAULT_FRAGMENT_LENGTH ∨
         (applyOp c op).curr_max_fragment_size = c.config.max_fragment_size) := by
      cases op with
      | sendOp n e => exact s2n_send_frame c n e
      | adjustOp e => exact adjust_frame c e
    have hc1 : (applyOp c op).curr_max_fragment_size = S2N_DEFAULT_FRAGMENT_LENGTH ∨
        (applyOp c op).curr_max_fragment_size = (applyOp c op).config.max_fragment_size := by
      rcases hstep.2 with h1 | h1 | h1
      · rcases hc with h0 | h0
        · exact Or.inl (h1.trans h0)
        · exact Or.inr (by rw [h1, h0, hstep.1])
      · exact Or.inl h1
      · exact Or.inr (by rw [h1, hstep.1])
    have hrest := iht (applyOp c op) hc1
    refine ⟨hrest.1.trans hstep.1, ?_⟩
    rcases hrest.2 with h1 | h1
    · exact Or.inl h1
    · exact Or.inr (h1.trans (by rw [hstep.1]))

/-- Witness for C1 at a concrete two-operation sequence. -/
theorem claim_C1_witness :
    (applyOps baseConn [Op.sendOp 5 okEnv, Op.adjustOp idleEnv]).config = baseConn.config ∧
    ((applyOps baseConn [Op.sendOp 5 okEnv, Op.adjustOp idleEnv]).curr_max_fragment_size
        = S2N_DEFAULT_FRAGMENT_LENGTH ∨
     (applyOps baseConn [Op.sendOp 5 okEnv, Op.adjustOp idleEnv]).curr_max_fragment_size
        = baseConn.config.max_fragment_size) :=
  claim_C1 [Op.sendOp 5 okEnv, Op.adjustOp idleEnv] baseConn rfl

end S2N
